import Mathlib

/-!
# DHT11 single-wire driver (`main/src/dht11.c`)

A shallow embedding of the driver: the pulse timer `_waitOrTimeout`, the
checksum test `_checkCRC`, the start signal, the acknowledgement check and the
read orchestrator `DHT11_read` with its throttling cache.

The C globals (`dht_gpio`, `last_read_time`, `last_read`) are the record
`Driver`.  The environment is split in two: `Env` holds the oracles (what the
line shows at the k-th call of `gpio_get_level`, what the clock shows at the
k-th call of `esp_timer_get_time`), `Hw` holds how far both oracles have been
consumed together with the log, in the order of execution, of clock reads,
GPIO operations and busy delays.

Integers: `int`, `int64_t` and the promoted `uint8_t` arithmetic are modelled
in `Int` / `Nat`; the only narrowing store (`data[i / 8] |= ...` into a
`uint8_t`) is an explicit `% 256`.  `esp_timer_get_time() - 2000000` is taken
without overflow (the clock counts microseconds since boot).
-/

namespace DHT11

/-! ## Declarations of `dht11.h` -/

/-- Modelled from the spec: the header `dht11.h` is not part of the sources, so
the three status codes of `enum dht11_status` are parameters of the embedding.
The spec names them Success, Timeout and CRC. -/
structure Header where
  DHT11_OK : Int
  DHT11_TIMEOUT_ERROR : Int
  DHT11_CRC_ERROR : Int
deriving DecidableEq, Repr

/-- Modelled from the spec: one concrete choice of the status codes, used to
evaluate the driver on concrete inputs (Success 0, Timeout -1, CRC -2). -/
def upstreamHeader : Header :=
  { DHT11_OK := 0, DHT11_TIMEOUT_ERROR := -1, DHT11_CRC_ERROR := -2 }

/-- Modelled from the spec: `struct dht11_reading` is declared in the missing
header; the spec gives its fields as status, temperature, humidity, which is
also the order the positional initialisers of `_timeoutError` and `_crcError`
rely on. -/
structure dht11_reading where
  status : Int
  temperature : Int
  humidity : Int
deriving DecidableEq, Repr

/-! ## Environment -/

/-- Direction of a GPIO pad (`gpio_mode_t`, only the two values used). -/
inductive gpio_mode_t
  | GPIO_MODE_INPUT
  | GPIO_MODE_OUTPUT
deriving DecidableEq, Repr

/-- One observable operation of the driver on its environment: a GPIO
operation, a busy delay, or a read of the clock with the value it gave. -/
inductive Event
  | set_direction (pin : Int) (mode : gpio_mode_t)
  | set_level (pin : Int) (level : Int)
  | get_level (pin : Int) (level : Int)
  | delay_us (us : Nat)
  | get_time (value : Int)
deriving DecidableEq, Repr

/-- The oracles: `line k` is the level seen by the k-th `gpio_get_level`
(`true` is high), `clock k` the value of the k-th `esp_timer_get_time`. -/
structure Env where
  line : Nat → Bool
  clock : Nat → Int

/-- Consumption of the oracles and the log of operations, oldest first. -/
structure Hw where
  polls : Nat
  clockReads : Nat
  trace : List Event
deriving DecidableEq, Repr

/-- The C globals of the driver. -/
structure Driver where
  dht_gpio : Int
  last_read_time : Int
  last_read : dht11_reading
deriving DecidableEq, Repr

/-- Static initialisers: `last_read_time = -2000000`, the rest zero. -/
def initialDriver : Driver :=
  { dht_gpio := 0, last_read_time := -2000000,
    last_read := { status := 0, temperature := 0, humidity := 0 } }

/-- Level of the line as the `int` that `gpio_get_level` returns. -/
def levelOf (b : Bool) : Int := if b then 1 else 0

def esp_timer_get_time (E : Env) (h : Hw) : Int × Hw :=
  (E.clock h.clockReads,
   { h with clockReads := h.clockReads + 1,
            trace := h.trace ++ [Event.get_time (E.clock h.clockReads)] })

def gpio_get_level (E : Env) (pin : Int) (h : Hw) : Int × Hw :=
  (levelOf (E.line h.polls),
   { h with polls := h.polls + 1,
            trace := h.trace ++ [Event.get_level pin (levelOf (E.line h.polls))] })

def gpio_set_direction (pin : Int) (mode : gpio_mode_t) (h : Hw) : Hw :=
  { h with trace := h.trace ++ [Event.set_direction pin mode] }

def gpio_set_level (pin : Int) (level : Int) (h : Hw) : Hw :=
  { h with trace := h.trace ++ [Event.set_level pin level] }

def ets_delay_us (us : Nat) (h : Hw) : Hw :=
  { h with trace := h.trace ++ [Event.delay_us us] }

/-! ## The driver -/

/-- The `while` loop of `_waitOrTimeout`. One unit of fuel is one evaluation of
the loop condition; `none` means the fuel ran out. -/
def waitLoop (H : Header) (E : Env) (pin : Int) (microSeconds : Nat) (level : Int) :
    Nat → Nat → Hw → Option (Int × Hw)
  | 0, _, _ => none
  | fuel + 1, micros_ticks, h =>
    if (gpio_get_level E pin h).1 = level then
      if micros_ticks > microSeconds then
        some (H.DHT11_TIMEOUT_ERROR, (gpio_get_level E pin h).2)
      else
        waitLoop H E pin microSeconds level fuel (micros_ticks + 1)
          (ets_delay_us 1 (gpio_get_level E pin h).2)
    else
      some ((micros_ticks : Int), (gpio_get_level E pin h).2)

/-- `_waitOrTimeout(microSeconds, level)`: the loop started at zero ticks. The
fuel `microSeconds + 2` is never exhausted (`waitOrTimeout_total`). -/
def _waitOrTimeout (H : Header) (E : Env) (pin : Int) (microSeconds : Nat) (level : Int)
    (h : Hw) : Option (Int × Hw) :=
  waitLoop H E pin microSeconds level (microSeconds + 2) 0 h

/-- `_checkCRC`: the comparison is made in `int`, the sum is not truncated. -/
def _checkCRC (H : Header) (data : List Nat) : Int :=
  if data.getD 4 0 = data.getD 0 0 + data.getD 1 0 + data.getD 2 0 + data.getD 3 0 then
    H.DHT11_OK
  else
    H.DHT11_CRC_ERROR

def _sendStartSignal (pin : Int) (h : Hw) : Hw :=
  gpio_set_direction pin gpio_mode_t.GPIO_MODE_INPUT
    (ets_delay_us 40
      (gpio_set_level pin 1
        (ets_delay_us (20 * 1000)
          (gpio_set_level pin 0
            (gpio_set_direction pin gpio_mode_t.GPIO_MODE_OUTPUT h)))))

def _checkResponse (H : Header) (E : Env) (pin : Int) (h : Hw) : Option (Int × Hw) :=
  match _waitOrTimeout H E pin 80 0 h with
  | none => none
  | some (r1, h1) =>
    if r1 = H.DHT11_TIMEOUT_ERROR then some (H.DHT11_TIMEOUT_ERROR, h1)
    else
      match _waitOrTimeout H E pin 80 1 h1 with
      | none => none
      | some (r2, h2) =>
        if r2 = H.DHT11_TIMEOUT_ERROR then some (H.DHT11_TIMEOUT_ERROR, h2)
        else some (H.DHT11_OK, h2)

def _timeoutError (H : Header) : dht11_reading :=
  { status := H.DHT11_TIMEOUT_ERROR, temperature := -1, humidity := -1 }

def _crcError (H : Header) : dht11_reading :=
  { status := H.DHT11_CRC_ERROR, temperature := -1, humidity := -1 }

/-- `DHT11_init`: records the pin (the one-second `vTaskDelay` before it has no
effect on the modelled state). -/
def DHT11_init (gpio_num : Int) (d : Driver) : Driver :=
  { d with dht_gpio := gpio_num }

/-- The store `data[i / 8] |= (1 << (7 - (i % 8)))` into a `uint8_t`. -/
def setBit (data : List Nat) (i : Nat) : List Nat :=
  data.set (i / 8) ((data.getD (i / 8) 0 ||| (1 <<< (7 - i % 8))) % 256)

/-- Outcome of the decode loop: left early through `return _timeoutError()`,
or ran to the end with the payload. -/
inductive Decoded
  | timedOut
  | payload (data : List Nat)
deriving DecidableEq, Repr

/-- The loop `for (int i = 0; i < 40; i++)` of `DHT11_read`; the first argument
is the number of iterations left, the second is `i`. -/
def readBits (H : Header) (E : Env) (pin : Int) :
    Nat → Nat → List Nat → Hw → Option (Decoded × Hw)
  | 0, _, data, h => some (Decoded.payload data, h)
  | n + 1, i, data, h =>
    match _waitOrTimeout H E pin 50 0 h with
    | none => none
    | some (r, h1) =>
      if r = H.DHT11_TIMEOUT_ERROR then some (Decoded.timedOut, h1)
      else
        match _waitOrTimeout H E pin 70 1 h1 with
        | none => none
        | some (w, h2) =>
          if w > 28 then readBits H E pin n (i + 1) (setBit data i) h2
          else readBits H E pin n (i + 1) data h2

/-- The tail of `DHT11_read` once the 40 bits are in: checksum, cache, return. -/
def finishRead (H : Header) (d : Driver) (data : List Nat) : dht11_reading × Driver :=
  if _checkCRC H data ≠ H.DHT11_CRC_ERROR then
    ({ status := H.DHT11_OK, temperature := (data.getD 2 0 : Nat), humidity := (data.getD 0 0 : Nat) },
     { d with last_read :=
        { status := H.DHT11_OK, temperature := (data.getD 2 0 : Nat),
          humidity := (data.getD 0 0 : Nat) } })
  else
    (_crcError H, { d with last_read := _crcError H })

/-- The hardware part of a fresh attempt of `DHT11_read`: start signal,
acknowledgement check, decode loop. Both `return last_read = _timeoutError()`
exits are the outcome `Decoded.timedOut`. -/
def acquire (H : Header) (E : Env) (pin : Int) (h : Hw) : Option (Decoded × Hw) :=
  match _checkResponse H E pin (_sendStartSignal pin h) with
  | none => none
  | some (r, h1) =>
    if r = H.DHT11_TIMEOUT_ERROR then some (Decoded.timedOut, h1)
    else readBits H E pin 40 0 [0, 0, 0, 0, 0] h1

/-- The part of `DHT11_read` after the throttle test: `d` already carries the new
`last_read_time`. -/
def freshRead (H : Header) (E : Env) (d : Driver) (h : Hw) :
    Option (dht11_reading × Driver × Hw) :=
  match acquire H E d.dht_gpio h with
  | none => none
  | some (Decoded.timedOut, h1) =>
    some (_timeoutError H, { d with last_read := _timeoutError H }, h1)
  | some (Decoded.payload data, h1) =>
    some ((finishRead H d data).1, (finishRead H d data).2, h1)

/-- `DHT11_read`. The clock is read once for the throttle test and, when the
call is not throttled, a second time for `last_read_time`. -/
def DHT11_read (H : Header) (E : Env) (d : Driver) (h : Hw) :
    Option (dht11_reading × Driver × Hw) :=
  if (esp_timer_get_time E h).1 - 2000000 < d.last_read_time then
    some (d.last_read, d, (esp_timer_get_time E h).2)
  else
    freshRead H E
      { d with last_read_time := (esp_timer_get_time E (esp_timer_get_time E h).2).1 }
      (esp_timer_get_time E (esp_timer_get_time E h).2).2

/-- Driver and hardware states that a program can be in: start from the static
initialisers, call `DHT11_init` and `DHT11_read` in any order. -/
inductive Reachable (H : Header) (E : Env) : Driver → Hw → Prop
  | start (h : Hw) : Reachable H E initialDriver h
  | init (gpio_num : Int) (d : Driver) (h : Hw) :
      Reachable H E d h → Reachable H E (DHT11_init gpio_num d) h
  | read (d : Driver) (h : Hw) (r : dht11_reading) (d1 : Driver) (h1 : Hw) :
      Reachable H E d h → DHT11_read H E d h = some (r, d1, h1) → Reachable H E d1 h1

/-! ## Shapes of the line -/

/-- From poll `s` on the line shows `lo` polls low, then `hi + 1` polls high,
then one poll low: a low phase that a wait for the end of low measures as `lo`
(the wait consumes the first high poll), followed by a high phase that a wait
for the end of high measures as `hi` (it consumes the closing low poll). -/
def Pulse (E : Env) (s lo hi : Nat) : Prop :=
  (∀ k, k < lo → E.line (s + k) = false) ∧
  (∀ k, k ≤ hi → E.line (s + lo + k) = true) ∧
  E.line (s + lo + hi + 1) = false

instance (E : Env) (s lo hi : Nat) : Decidable (Pulse E s lo hi) := by
  unfold Pulse
  infer_instance

/-- Poll at which the pulse of bit `i` begins when bit 0 begins at poll `p` and
bit `j` is measured as `lo j` low ticks and `hi j` high ticks. -/
def bitStart (p : Nat) (lo hi : Nat → Nat) : Nat → Nat
  | 0 => p
  | i + 1 => bitStart p lo hi i + lo i + hi i + 2

/-- The bits below index `i` are in place and nothing else is set. -/
def BitsUpTo (b : Nat → Bool) (i : Nat) (data : List Nat) : Prop :=
  data.length = 5 ∧ ∀ j t, j < 5 →
    (data.getD j 0).testBit t = (decide (t < 8) && (decide (8 * j + (7 - t) < i) && b (8 * j + (7 - t))))

/-! ## Concrete lines for the scenarios -/

/-- A line given by runs: `(n, v)` stands for `n` polls at level `v`; the line is
low after the last run. -/
def lineOfRuns : List (Nat × Bool) → Nat → Bool
  | [], _ => false
  | (n, v) :: rest, k => if k < n then v else lineOfRuns rest (k - n)

def hw0 : Hw := { polls := 0, clockReads := 0, trace := [] }

/-- Runs of one pulse: `lo` polls low, `hi + 1` high, one low. -/
def pulseRuns (lo hi : Nat) : List (Nat × Bool) :=
  [(lo, false), (hi + 1, true), (1, false)]

/-- Bit `i` of a payload, most significant bit of each byte first. -/
def bitAt (bytes : List Nat) (i : Nat) : Bool := (bytes.getD (i / 8) 0).testBit (7 - i % 8)

/-- High ticks the simulated sensor shows for a bit. -/
def widthOf (b : Bool) : Nat := if b then 30 else 5

/-- The simulated sensor: acknowledgement pulse (2 low, 2 high ticks), then the
first `n` bits of `bytes`, each after one low tick. -/
def sensorRuns (n : Nat) (bytes : List Nat) : List (Nat × Bool) :=
  pulseRuns 2 2 ++
    ((List.range n).map (fun i => pulseRuns 1 (widthOf (bitAt bytes i)))).flatten

/-- Scenario A: humidity 55, temperature 26, checksum 81. -/
def envA : Env := { line := lineOfRuns (sensorRuns 40 [55, 0, 26, 0, 81]), clock := fun _ => 0 }

/-- Scenario B: as A with checksum byte 80. -/
def envB : Env := { line := lineOfRuns (sensorRuns 40 [55, 0, 26, 0, 80]), clock := fun _ => 0 }

/-- A payload whose four-byte sum is 300 and whose last byte is 300 mod 256. -/
def envWrap : Env := { line := lineOfRuns (sensorRuns 40 [200, 0, 100, 0, 44]), clock := fun _ => 0 }

/-- Scenario D: acknowledgement, the first 10 bits of scenario A, then low for
good. -/
def envD : Env := { line := lineOfRuns (sensorRuns 10 [55, 0, 26, 0, 81]), clock := fun _ => 0 }

/-- Acknowledgement pulse (polls 0 to 5), then the line stays high. -/
def envStuckHigh : Env :=
  { line := fun k => decide (k = 2 ∨ k = 3 ∨ k = 4 ∨ 6 ≤ k), clock := fun _ => 0 }

/-- Three calls: a fresh one at clock 0 that meets a stalled line, one at clock
1999999, one at clock 2000000 that meets an acknowledgement and then a line
that stays high. -/
def envRepoll : Env :=
  { line := fun k => decide (k = 0 ∨ k = 54 ∨ 56 ≤ k),
    clock := fun k => if k < 2 then 0 else if k = 2 then 1999999 else 2000000 }

/-- A line that never leaves the low level. -/
def envLow : Env := { line := fun _ => false, clock := fun _ => 0 }

/-- A line that is high at every even poll and low at every odd one: each wait
ends at its first poll, the payload read is all zero. -/
def envAlt : Env := { line := fun k => decide (k % 2 = 0), clock := fun _ => 0 }

/-- Scenario A with the low phase of bit 10 stretched to 51 polls. -/
def envLate : Env :=
  { line := lineOfRuns (pulseRuns 2 2 ++
      ((List.range 40).map (fun i =>
        pulseRuns (if i = 10 then 51 else 1) (widthOf (bitAt [55, 0, 26, 0, 81] i)))).flatten),
    clock := fun _ => 0 }

/-- A line that is low at the first 51 polls and high afterwards. -/
def envBoundary : Env := { line := fun k => decide (51 ≤ k), clock := fun _ => 0 }

/-! ## Provenance of a reading -/

@[simp] theorem gpio_get_level_polls (E : Env) (pin : Int) (h : Hw) :
    (gpio_get_level E pin h).2.polls = h.polls + 1 := rfl

@[simp] theorem gpio_get_level_clockReads (E : Env) (pin : Int) (h : Hw) :
    (gpio_get_level E pin h).2.clockReads = h.clockReads := rfl

@[simp] theorem gpio_get_level_val (E : Env) (pin : Int) (h : Hw) :
    (gpio_get_level E pin h).1 = levelOf (E.line h.polls) := rfl

@[simp] theorem ets_delay_us_polls (us : Nat) (h : Hw) : (ets_delay_us us h).polls = h.polls := rfl

@[simp] theorem ets_delay_us_clockReads (us : Nat) (h : Hw) :
    (ets_delay_us us h).clockReads = h.clockReads := rfl

/-- The loop leaves through its exit test after `n` polls at the awaited level
followed by one poll at the other level, provided the tick count stays within
`microSeconds + 1`. -/
theorem waitLoop_exit (H : Header) (E : Env) (pin : Int) (T : Nat) (level : Int) :
    ∀ (n fuel ticks : Nat) (h : Hw),
      (∀ j, j < n → levelOf (E.line (h.polls + j)) = level) →
      levelOf (E.line (h.polls + n)) ≠ level →
      ticks + n ≤ T + 1 → n < fuel →
      ∃ h1, waitLoop H E pin T level fuel ticks h = some (((ticks + n : Nat) : Int), h1) ∧
        h1.polls = h.polls + n + 1 ∧ h1.clockReads = h.clockReads := by
  intro n
  induction n with
  | zero =>
    intro fuel ticks h _ hne _ hf
    obtain ⟨f, rfl⟩ : ∃ f, fuel = f + 1 := ⟨fuel - 1, by omega⟩
    refine ⟨(gpio_get_level E pin h).2, ?_, by simp, by simp⟩
    have : ¬ levelOf (E.line h.polls) = level := by simpa using hne
    simp [waitLoop, this]
  | succ n ih =>
    intro fuel ticks h hall hne hb hf
    obtain ⟨f, rfl⟩ : ∃ f, fuel = f + 1 := ⟨fuel - 1, by omega⟩
    have h0 : levelOf (E.line h.polls) = level := by simpa using hall 0 (by omega)
    have hle : ¬ ticks > T := by omega
    obtain ⟨h1, e1, p1, c1⟩ := ih f (ticks + 1) (ets_delay_us 1 (gpio_get_level E pin h).2)
      (by intro j hj; have := hall (j + 1) (by omega); simpa [Nat.add_assoc, Nat.add_comm 1 j] using this)
      (by simpa [Nat.add_assoc, Nat.add_comm 1 n] using hne) (by omega) (by omega)
    refine ⟨h1, ?_, by simp at p1; omega, by simpa using c1⟩
    simp only [waitLoop, gpio_get_level_val, h0, hle, if_true, if_false]
    rw [e1]
    congr 3
    omega

/-- The loop leaves through `return DHT11_TIMEOUT_ERROR` when the line is at the
awaited level at every poll up to the one taken with `microSeconds + 1` ticks. -/
theorem waitLoop_timeout (H : Header) (E : Env) (pin : Int) (T : Nat) (level : Int) :
    ∀ (k fuel ticks : Nat) (h : Hw),
      ticks + k = T + 1 → k < fuel →
      (∀ j, j ≤ k → levelOf (E.line (h.polls + j)) = level) →
      ∃ h1, waitLoop H E pin T level fuel ticks h = some (H.DHT11_TIMEOUT_ERROR, h1) ∧
        h1.polls = h.polls + k + 1 ∧ h1.clockReads = h.clockReads := by
  intro k
  induction k with
  | zero =>
    intro fuel ticks h hk hf hall
    obtain ⟨f, rfl⟩ : ∃ f, fuel = f + 1 := ⟨fuel - 1, by omega⟩
    have h0 : levelOf (E.line h.polls) = level := by simpa using hall 0 (by omega)
    have hgt : ticks > T := by omega
    exact ⟨(gpio_get_level E pin h).2, by simp [waitLoop, h0, hgt], by simp, by simp⟩
  | succ k ih =>
    intro fuel ticks h hk hf hall
    obtain ⟨f, rfl⟩ : ∃ f, fuel = f + 1 := ⟨fuel - 1, by omega⟩
    have h0 : levelOf (E.line h.polls) = level := by simpa using hall 0 (by omega)
    have hle : ¬ ticks > T := by omega
    obtain ⟨h1, e1, p1, c1⟩ := ih f (ticks + 1) (ets_delay_us 1 (gpio_get_level E pin h).2)
      (by omega) (by omega)
      (by intro j hj; have := hall (j + 1) (by omega); simpa [Nat.add_assoc, Nat.add_comm 1 j] using this)
    refine ⟨h1, ?_, by simp at p1; omega, by simpa using c1⟩
    simp only [waitLoop, gpio_get_level_val, h0, hle, if_true, if_false]
    exact e1

/-- With `microSeconds + 2 - ticks` units of fuel the loop always returns: a
count between `ticks` and `microSeconds + 1`, or the timeout code. -/
theorem waitLoop_total (H : Header) (E : Env) (pin : Int) (T : Nat) (level : Int) :
    ∀ (fuel ticks : Nat) (h : Hw), ticks ≤ T + 1 → T + 2 ≤ fuel + ticks →
      ∃ r h1, waitLoop H E pin T level fuel ticks h = some (r, h1) ∧
        (r = H.DHT11_TIMEOUT_ERROR ∨ ∃ n : Nat, r = (n : Int) ∧ ticks ≤ n ∧ n ≤ T + 1) ∧
        h.polls < h1.polls ∧ h1.polls + ticks ≤ h.polls + T + 2 ∧
        h1.clockReads = h.clockReads := by
  intro fuel
  induction fuel with
  | zero => intro ticks h h1 h2; omega
  | succ f ih =>
    intro ticks h hle hf
    by_cases h0 : levelOf (E.line h.polls) = level
    · by_cases hgt : ticks > T
      · exact ⟨H.DHT11_TIMEOUT_ERROR, (gpio_get_level E pin h).2, by simp [waitLoop, h0, hgt],
          Or.inl rfl, by simp, by simp; omega, by simp⟩
      · obtain ⟨r, h1, e1, hr, p1, p2, c1⟩ :=
          ih (ticks + 1) (ets_delay_us 1 (gpio_get_level E pin h).2) (by omega) (by omega)
        refine ⟨r, h1, by simp only [waitLoop, gpio_get_level_val, h0, hgt, if_true, if_false]; exact e1,
          ?_, by simp at p1; omega, by simp at p2; omega, by simpa using c1⟩
        rcases hr with hr | ⟨n, hn, h3, h4⟩
        · exact Or.inl hr
        · exact Or.inr ⟨n, hn, by omega, h4⟩
    · exact ⟨(ticks : Int), (gpio_get_level E pin h).2, by simp [waitLoop, h0],
        Or.inr ⟨ticks, rfl, le_refl _, hle⟩, by simp, by simp; omega, by simp⟩

/-! ## Helper routines always return -/

theorem getD_set_nat (l : List Nat) (i j a : Nat) :
    (l.set i a).getD j 0 = if i = j ∧ i < l.length then a else l.getD j 0 := by
  simp only [List.getD_eq_getElem?_getD, List.getElem?_set]
  by_cases hij : i = j
  · subst hij
    by_cases hl : i < l.length
    · simp [hl]
    · simp [hl, List.getElem?_eq_none (Nat.le_of_not_lt hl)]
  · simp [hij]

theorem setBit_length (data : List Nat) (i : Nat) : (setBit data i).length = data.length := by
  simp [setBit]

theorem setBit_getD (data : List Nat) (i j : Nat) :
    (setBit data i).getD j 0 =
      if i / 8 = j ∧ i / 8 < data.length then (data.getD j 0 ||| (1 <<< (7 - i % 8))) % 256
      else data.getD j 0 := by
  unfold setBit
  rw [getD_set_nat]
  by_cases h : i / 8 = j ∧ i / 8 < data.length
  · rw [if_pos h, if_pos h, h.1]
  · rw [if_neg h, if_neg h]

theorem setBit_lt (data : List Nat) (i : Nat) (hd : ∀ j, data.getD j 0 < 256) :
    ∀ j, (setBit data i).getD j 0 < 256 := by
  intro j
  rw [setBit_getD]
  split_ifs
  · exact Nat.mod_lt _ (by norm_num)
  · exact hd j

theorem waitOrTimeout_exit (H : Header) (E : Env) (pin : Int) (T : Nat) (level : Int)
    (n : Nat) (h : Hw) (hall : ∀ j, j < n → levelOf (E.line (h.polls + j)) = level)
    (hne : levelOf (E.line (h.polls + n)) ≠ level) (hn : n ≤ T + 1) :
    ∃ h1, _waitOrTimeout H E pin T level h = some ((n : Int), h1) ∧
      h1.polls = h.polls + n + 1 ∧ h1.clockReads = h.clockReads := by
  have := waitLoop_exit H E pin T level n (T + 2) 0 h hall hne (by omega) (by omega)
  simpa [_waitOrTimeout] using this

theorem waitOrTimeout_timeout (H : Header) (E : Env) (pin : Int) (T : Nat) (level : Int)
    (h : Hw) (hall : ∀ j, j ≤ T + 1 → levelOf (E.line (h.polls + j)) = level) :
    ∃ h1, _waitOrTimeout H E pin T level h = some (H.DHT11_TIMEOUT_ERROR, h1) ∧
      h1.polls = h.polls + T + 2 ∧ h1.clockReads = h.clockReads := by
  have := waitLoop_timeout H E pin T level (T + 1) (T + 2) 0 h (by omega) (by omega) hall
  simpa [_waitOrTimeout, Nat.add_assoc] using this

theorem waitOrTimeout_total (H : Header) (E : Env) (pin : Int) (T : Nat) (level : Int) (h : Hw) :
    ∃ r h1, _waitOrTimeout H E pin T level h = some (r, h1) ∧
      (r = H.DHT11_TIMEOUT_ERROR ∨ ∃ n : Nat, r = (n : Int) ∧ n ≤ T + 1) ∧
      h.polls < h1.polls ∧ h1.polls ≤ h.polls + T + 2 ∧ h1.clockReads = h.clockReads := by
  obtain ⟨r, h1, e, hr, p1, p2, c⟩ := waitLoop_total H E pin T level (T + 2) 0 h (by omega) (by omega)
  refine ⟨r, h1, e, ?_, p1, by omega, c⟩
  rcases hr with hr | ⟨n, hn, _, h4⟩
  · exact Or.inl hr
  · exact Or.inr ⟨n, hn, h4⟩

@[simp] theorem sendStartSignal_polls (pin : Int) (h : Hw) : (_sendStartSignal pin h).polls = h.polls := rfl

@[simp] theorem sendStartSignal_clockReads (pin : Int) (h : Hw) :
    (_sendStartSignal pin h).clockReads = h.clockReads := rfl

theorem checkResponse_total (H : Header) (E : Env) (pin : Int) (h : Hw) :
    ∃ r h1, _checkResponse H E pin h = some (r, h1) ∧
      (r = H.DHT11_TIMEOUT_ERROR ∨ r = H.DHT11_OK) ∧
      h.polls < h1.polls ∧ h1.polls ≤ h.polls + 2 * 82 ∧ h1.clockReads = h.clockReads := by
  obtain ⟨r1, h1, e1, -, p1, q1, c1⟩ := waitOrTimeout_total H E pin 80 0 h
  by_cases t1 : r1 = H.DHT11_TIMEOUT_ERROR
  · exact ⟨H.DHT11_TIMEOUT_ERROR, h1, by simp [_checkResponse, e1, t1], Or.inl rfl, p1, by omega, c1⟩
  · obtain ⟨r2, h2, e2, -, p2, q2, c2⟩ := waitOrTimeout_total H E pin 80 1 h1
    by_cases t2 : r2 = H.DHT11_TIMEOUT_ERROR
    · exact ⟨H.DHT11_TIMEOUT_ERROR, h2, by simp [_checkResponse, e1, t1, e2, t2], Or.inl rfl,
        by omega, by omega, by omega⟩
    · exact ⟨H.DHT11_OK, h2, by simp [_checkResponse, e1, t1, e2, t2], Or.inr rfl,
        by omega, by omega, by omega⟩

/-- The decode loop always returns; a payload keeps the length of the array and
every byte below 256. -/
theorem readBits_total (H : Header) (E : Env) (pin : Int) :
    ∀ (n i : Nat) (data : List Nat) (h : Hw), (∀ j, data.getD j 0 < 256) →
      ∃ res h1, readBits H E pin n i data h = some (res, h1) ∧
        h.polls ≤ h1.polls ∧ h1.polls ≤ h.polls + n * (52 + 72) ∧ h1.clockReads = h.clockReads ∧
        ∀ out, res = Decoded.payload out → out.length = data.length ∧ ∀ j, out.getD j 0 < 256 := by
  intro n
  induction n with
  | zero =>
    intro i data h hd
    exact ⟨Decoded.payload data, h, rfl, le_refl _, by omega, rfl,
      by intro out ho; cases ho; exact ⟨rfl, hd⟩⟩
  | succ n ih =>
    intro i data h hd
    obtain ⟨r1, h1, e1, -, p1, q1, c1⟩ := waitOrTimeout_total H E pin 50 0 h
    by_cases t1 : r1 = H.DHT11_TIMEOUT_ERROR
    · exact ⟨Decoded.timedOut, h1, by simp [readBits, e1, t1], by omega, by omega, c1,
        by intro out ho; cases ho⟩
    · obtain ⟨r2, h2, e2, -, p2, q2, c2⟩ := waitOrTimeout_total H E pin 70 1 h1
      by_cases hw : r2 > 28
      · obtain ⟨res, h3, e3, p3, q3, c3, hout⟩ := ih (i + 1) (setBit data i) h2 (setBit_lt data i hd)
        refine ⟨res, h3, by simp [readBits, e1, t1, e2, hw, e3], by omega, by omega, by omega, ?_⟩
        intro out ho
        have := hout out ho
        rw [setBit_length] at this
        exact this
      · obtain ⟨res, h3, e3, p3, q3, c3, hout⟩ := ih (i + 1) data h2 hd
        exact ⟨res, h3, by simp [readBits, e1, t1, e2, hw, e3], by omega, by omega, by omega, hout⟩

/-! ## Case analysis of a read -/

@[simp] theorem esp_timer_get_time_val (E : Env) (h : Hw) :
    (esp_timer_get_time E h).1 = E.clock h.clockReads := rfl

@[simp] theorem esp_timer_get_time_polls (E : Env) (h : Hw) :
    (esp_timer_get_time E h).2.polls = h.polls := rfl

@[simp] theorem esp_timer_get_time_clockReads (E : Env) (h : Hw) :
    (esp_timer_get_time E h).2.clockReads = h.clockReads + 1 := rfl

@[simp] theorem esp_timer_get_time_trace (E : Env) (h : Hw) :
    (esp_timer_get_time E h).2.trace = h.trace ++ [Event.get_time (E.clock h.clockReads)] := rfl

theorem finishRead_ok (H : Header) (d : Driver) (data : List Nat)
    (hc : _checkCRC H data ≠ H.DHT11_CRC_ERROR) :
    finishRead H d data =
      ({ status := H.DHT11_OK, temperature := (data.getD 2 0 : Nat), humidity := (data.getD 0 0 : Nat) },
       { d with last_read :=
          { status := H.DHT11_OK, temperature := (data.getD 2 0 : Nat),
            humidity := (data.getD 0 0 : Nat) } }) := by
  unfold finishRead
  rw [if_pos hc]

theorem finishRead_crc (H : Header) (d : Driver) (data : List Nat)
    (hc : _checkCRC H data = H.DHT11_CRC_ERROR) :
    finishRead H d data = (_crcError H, { d with last_read := _crcError H }) := by
  unfold finishRead
  rw [if_neg (not_not.mpr hc)]

theorem zeros_lt (j : Nat) : ([0, 0, 0, 0, 0] : List Nat).getD j 0 < 256 := by
  simp only [List.getD_eq_getElem?_getD]
  rcases j with _ | _ | _ | _ | _ | _ | j <;> simp

/-- The hardware part of an attempt always returns, after at least one and at
most `2 * 82 + 40 * (52 + 72)` polls; a payload has five bytes below 256. -/
theorem acquire_total (H : Header) (E : Env) (pin : Int) (h : Hw) :
    ∃ res h1, acquire H E pin h = some (res, h1) ∧
      h.polls < h1.polls ∧ h1.polls ≤ h.polls + 2 * 82 + 40 * (52 + 72) ∧
      h1.clockReads = h.clockReads ∧
      ∀ out, res = Decoded.payload out → out.length = 5 ∧ ∀ j, out.getD j 0 < 256 := by
  obtain ⟨r1, h1, e1, -, p1, q1, c1⟩ := checkResponse_total H E pin (_sendStartSignal pin h)
  simp only [sendStartSignal_polls, sendStartSignal_clockReads] at p1 q1 c1
  by_cases t1 : r1 = H.DHT11_TIMEOUT_ERROR
  · exact ⟨Decoded.timedOut, h1, by simp [acquire, e1, t1], p1, by omega, c1,
      by intro out ho; cases ho⟩
  · obtain ⟨res, h2, e2, p2, q2, c2, hout⟩ :=
      readBits_total H E pin 40 0 [0, 0, 0, 0, 0] h1 zeros_lt
    exact ⟨res, h2, by simp [acquire, e1, t1, e2], by omega, by omega, by omega, hout⟩

theorem freshRead_timedOut (H : Header) (E : Env) (d : Driver) (h h1 : Hw)
    (e : acquire H E d.dht_gpio h = some (Decoded.timedOut, h1)) :
    freshRead H E d h = some (_timeoutError H, { d with last_read := _timeoutError H }, h1) := by
  simp [freshRead, e]

theorem freshRead_payload (H : Header) (E : Env) (d : Driver) (h h1 : Hw) (data : List Nat)
    (e : acquire H E d.dht_gpio h = some (Decoded.payload data, h1)) :
    freshRead H E d h = some ((finishRead H d data).1, (finishRead H d data).2, h1) := by
  simp [freshRead, e]

/-- The three ways a fresh attempt ends. -/
theorem freshRead_cases (H : Header) (E : Env) (d : Driver) (h : Hw) :
    ∃ r h1, freshRead H E d h = some (r, { d with last_read := r }, h1) ∧
      h.polls < h1.polls ∧ h1.polls ≤ h.polls + 2 * 82 + 40 * (52 + 72) ∧
      h1.clockReads = h.clockReads ∧
      (r = _timeoutError H ∨ r = _crcError H ∨
        ∃ t u : Nat, r = { status := H.DHT11_OK, temperature := (t : Int), humidity := (u : Int) }) := by
  obtain ⟨res, h1, e1, p1, q1, c1, -⟩ := acquire_total H E d.dht_gpio h
  cases res with
  | timedOut =>
    exact ⟨_timeoutError H, h1, freshRead_timedOut H E d h h1 e1, p1, q1, c1, Or.inl rfl⟩
  | payload data =>
    by_cases hc : _checkCRC H data ≠ H.DHT11_CRC_ERROR
    · exact ⟨_, h1, by rw [freshRead_payload H E d h h1 data e1, finishRead_ok H d data hc],
        p1, q1, c1, Or.inr (Or.inr ⟨data.getD 2 0, data.getD 0 0, rfl⟩)⟩
    · exact ⟨_crcError H, h1,
        by rw [freshRead_payload H E d h h1 data e1, finishRead_crc H d data (not_not.mp hc)],
        p1, q1, c1, Or.inr (Or.inl rfl)⟩

theorem DHT11_read_throttled (H : Header) (E : Env) (d : Driver) (h : Hw)
    (ht : E.clock h.clockReads - 2000000 < d.last_read_time) :
    DHT11_read H E d h = some (d.last_read, d, (esp_timer_get_time E h).2) := by
  simp [DHT11_read, ht]

theorem DHT11_read_fresh (H : Header) (E : Env) (d : Driver) (h : Hw)
    (ht : ¬ E.clock h.clockReads - 2000000 < d.last_read_time) :
    DHT11_read H E d h =
      freshRead H E { d with last_read_time := E.clock (h.clockReads + 1) }
        (esp_timer_get_time E (esp_timer_get_time E h).2).2 := by
  simp [DHT11_read, ht]

/-- Every call returns; the reading is the cache or one of the three outcomes
of a fresh attempt, and it is the cache afterwards. -/
theorem DHT11_read_cases (H : Header) (E : Env) (d : Driver) (h : Hw) :
    ∃ r d1 h1, DHT11_read H E d h = some (r, d1, h1) ∧ d1.last_read = r ∧
      (r = d.last_read ∨ r = _timeoutError H ∨ r = _crcError H ∨
        ∃ t u : Nat, r = { status := H.DHT11_OK, temperature := (t : Int), humidity := (u : Int) }) := by
  by_cases ht : E.clock h.clockReads - 2000000 < d.last_read_time
  · exact ⟨d.last_read, d, _, DHT11_read_throttled H E d h ht, rfl, Or.inl rfl⟩
  · obtain ⟨r, h1, e, -, -, -, hr⟩ :=
      freshRead_cases H E { d with last_read_time := E.clock (h.clockReads + 1) }
        (esp_timer_get_time E (esp_timer_get_time E h).2).2
    exact ⟨r, _, h1, by rw [DHT11_read_fresh H E d h ht, e], rfl, Or.inr hr⟩

/-- The cache of a reachable driver carries the sentinels unless its status is
`DHT11_OK`. -/
theorem reachable_cache (H : Header) (hOK : H.DHT11_OK = 0) (E : Env) (d : Driver) (h : Hw)
    (hr : Reachable H E d h) :
    d.last_read.status ≠ H.DHT11_OK →
      d.last_read.temperature = -1 ∧ d.last_read.humidity = -1 := by
  induction hr with
  | start h => intro hne; exact absurd (by simp [initialDriver, hOK]) hne
  | init gpio_num d h _ ih => exact ih
  | read d h r d1 h1 _ e ih =>
    obtain ⟨r0, d0, h0, e0, hc, hcase⟩ := DHT11_read_cases H E d h
    rw [e] at e0
    simp only [Option.some.injEq, Prod.mk.injEq] at e0
    obtain ⟨rfl, rfl, rfl⟩ := e0
    rw [hc]
    rcases hcase with hcase | hcase | hcase | ⟨t, u, hcase⟩
    · rw [hcase]; exact ih
    · rw [hcase]; intro _; exact ⟨rfl, rfl⟩
    · rw [hcase]; intro _; exact ⟨rfl, rfl⟩
    · rw [hcase]; intro hne; exact absurd rfl hne

/-- A fresh attempt that captures `data` ends in `finishRead` of `data`. -/
theorem fresh_of_payload (H : Header) (E : Env) (d : Driver) (h : Hw)
    (hfresh : ¬ E.clock h.clockReads - 2000000 < d.last_read_time) (data : List Nat)
    (hacq : (acquire H E d.dht_gpio (esp_timer_get_time E (esp_timer_get_time E h).2).2).map
      Prod.fst = some (Decoded.payload data)) :
    ∃ h1,
      acquire H E d.dht_gpio (esp_timer_get_time E (esp_timer_get_time E h).2).2 =
        some (Decoded.payload data, h1) ∧
      DHT11_read H E d h =
        some ((finishRead H { d with last_read_time := E.clock (h.clockReads + 1) } data).1,
              (finishRead H { d with last_read_time := E.clock (h.clockReads + 1) } data).2, h1) ∧
      data.length = 5 ∧ ∀ j, data.getD j 0 < 256 := by
  obtain ⟨res, h1, e1, -, -, -, hout⟩ :=
    acquire_total H E d.dht_gpio (esp_timer_get_time E (esp_timer_get_time E h).2).2
  rw [e1] at hacq
  simp only [Option.map_some', Option.some.injEq] at hacq
  subst hacq
  exact ⟨h1, e1,
    by rw [DHT11_read_fresh H E d h hfresh,
        freshRead_payload H E { d with last_read_time := E.clock (h.clockReads + 1) } _ h1 data e1],
    hout data rfl⟩

/-! ## The decode loop on pulses -/

@[simp] theorem levelOf_false : levelOf false = 0 := rfl

@[simp] theorem levelOf_true : levelOf true = 1 := rfl

/-- On a pulse the wait for the end of low returns the low tick count. -/
theorem wait_low_pulse (H : Header) (E : Env) (pin : Int) (T : Nat) (h : Hw) (lo hi : Nat)
    (hp : Pulse E h.polls lo hi) (hlo : lo ≤ T + 1) :
    ∃ h1, _waitOrTimeout H E pin T 0 h = some ((lo : Int), h1) ∧
      h1.polls = h.polls + lo + 1 ∧ h1.clockReads = h.clockReads := by
  apply waitOrTimeout_exit H E pin T 0 lo h
  · intro j hj; rw [hp.1 j hj]; rfl
  · have := hp.2.1 0 (Nat.zero_le _)
    rw [Nat.add_zero] at this
    rw [this]; simp
  · exact hlo

/-- After the low wait of a pulse the wait for the end of high returns the high
tick count. -/
theorem wait_high_pulse (H : Header) (E : Env) (pin : Int) (T : Nat) (h1 : Hw) (s lo hi : Nat)
    (hp : Pulse E s lo hi) (hs : h1.polls = s + lo + 1) (hhi : hi ≤ T + 1) :
    ∃ h2, _waitOrTimeout H E pin T 1 h1 = some ((hi : Int), h2) ∧
      h2.polls = s + lo + hi + 2 ∧ h2.clockReads = h1.clockReads := by
  obtain ⟨h2, e, p, c⟩ := waitOrTimeout_exit H E pin T 1 hi h1
    (by intro j hj
        have := hp.2.1 (j + 1) (by omega)
        rw [hs, show s + lo + 1 + j = s + lo + (j + 1) by omega, this]; rfl)
    (by rw [hs, show s + lo + 1 + hi = s + lo + hi + 1 by omega, hp.2.2]; simp)
    hhi
  exact ⟨h2, e, by omega, c⟩

/-- One iteration of the decode loop on a pulse. -/
theorem readBits_step (H : Header) (hT : H.DHT11_TIMEOUT_ERROR < 0) (E : Env) (pin : Int)
    (h : Hw) (lo hi : Nat) (hp : Pulse E h.polls lo hi) (hlo : lo ≤ 51) (hhi : hi ≤ 71) :
    ∃ h2, h2.polls = h.polls + lo + hi + 2 ∧ h2.clockReads = h.clockReads ∧
      ∀ n i data, readBits H E pin (n + 1) i data h =
        readBits H E pin n (i + 1) (if 28 < hi then setBit data i else data) h2 := by
  obtain ⟨h1, e1, p1, c1⟩ := wait_low_pulse H E pin 50 h lo hi hp hlo
  obtain ⟨h2, e2, p2, c2⟩ := wait_high_pulse H E pin 70 h1 h.polls lo hi hp p1 hhi
  refine ⟨h2, p2, by omega, ?_⟩
  intro n i data
  have t1 : ¬ ((lo : Int) = H.DHT11_TIMEOUT_ERROR) := by
    have : (0 : Int) ≤ (lo : Int) := Int.ofNat_nonneg lo
    omega
  by_cases hw : 28 < hi
  · have hw2 : (hi : Int) > 28 := by omega
    simp only [readBits, e1, t1, e2, hw, hw2, if_true, if_false]
  · have hw2 : ¬ (hi : Int) > 28 := by omega
    simp only [readBits, e1, t1, e2, hw, hw2, if_true, if_false]

/-- The acknowledgement check on a pulse. -/
theorem checkResponse_pulse (H : Header) (hT : H.DHT11_TIMEOUT_ERROR < 0) (E : Env) (pin : Int)
    (h : Hw) (a c : Nat) (hp : Pulse E h.polls a c) (ha : a ≤ 81) (hc : c ≤ 81) :
    ∃ h2, _checkResponse H E pin h = some (H.DHT11_OK, h2) ∧
      h2.polls = h.polls + a + c + 2 ∧ h2.clockReads = h.clockReads := by
  obtain ⟨h1, e1, p1, c1⟩ := wait_low_pulse H E pin 80 h a c hp ha
  obtain ⟨h2, e2, p2, c2⟩ := wait_high_pulse H E pin 80 h1 h.polls a c hp p1 hc
  have t1 : ¬ ((a : Int) = H.DHT11_TIMEOUT_ERROR) := by
    have : (0 : Int) ≤ (a : Int) := Int.ofNat_nonneg a
    omega
  have t2 : ¬ ((c : Int) = H.DHT11_TIMEOUT_ERROR) := by
    have : (0 : Int) ≤ (c : Int) := Int.ofNat_nonneg c
    omega
  exact ⟨h2, by simp only [_checkResponse, e1, t1, e2, t2, if_false], p2, by omega⟩

/-- A wait for the end of low times out when the line is low at 52 polls in a
row, for the bound 50. -/
theorem readBits_low_timeout (H : Header) (E : Env) (pin : Int) (h : Hw)
    (hlow : ∀ j, j ≤ 51 → E.line (h.polls + j) = false) (n i : Nat) (data : List Nat) :
    ∃ h1, readBits H E pin (n + 1) i data h = some (Decoded.timedOut, h1) ∧
      h1.polls = h.polls + 52 ∧ h1.clockReads = h.clockReads := by
  obtain ⟨h1, e1, p1, c1⟩ := waitOrTimeout_timeout H E pin 50 0 h
    (by intro j hj; rw [hlow j hj]; rfl)
  exact ⟨h1, by simp [readBits, e1], p1, c1⟩

theorem bitsUpTo_zero (b : Nat → Bool) : BitsUpTo b 0 [0, 0, 0, 0, 0] := by
  refine ⟨rfl, ?_⟩
  intro j t hj
  have : ([0, 0, 0, 0, 0] : List Nat).getD j 0 = 0 := by
    simp only [List.getD_eq_getElem?_getD]
    rcases j with _ | _ | _ | _ | _ | _ | j <;> simp
  rw [this]
  simp

theorem bitsUpTo_keep (b : Nat → Bool) (i : Nat) (data : List Nat) (hb : b i = false)
    (hd : BitsUpTo b i data) : BitsUpTo b (i + 1) data := by
  refine ⟨hd.1, ?_⟩
  intro j t hj
  rw [hd.2 j t hj]
  by_cases ht : t < 8
  · by_cases hm : 8 * j + (7 - t) = i
    · rw [hm, hb]; simp
    · have : (8 * j + (7 - t) < i + 1) ↔ (8 * j + (7 - t) < i) := by omega
      simp [this]
  · simp [ht]

theorem bitsUpTo_set (b : Nat → Bool) (i : Nat) (data : List Nat) (hb : b i = true)
    (hd : BitsUpTo b i data) : BitsUpTo b (i + 1) (setBit data i) := by
  refine ⟨by rw [setBit_length]; exact hd.1, ?_⟩
  intro j t hj
  rw [setBit_getD]
  by_cases hj0 : i / 8 = j
  · have hlen : i / 8 < data.length := by rw [hd.1]; omega
    rw [if_pos ⟨hj0, hlen⟩, Nat.testBit_mod_two_pow _ 8, Nat.testBit_lor, hd.2 j t hj,
      Nat.one_shiftLeft, Nat.testBit_two_pow]
    by_cases ht : t < 8
    · by_cases hm : 7 - i % 8 = t
      · have : 8 * j + (7 - t) = i := by omega
        rw [this, hb]; simp [ht, hm]
      · have h1 : 8 * j + (7 - t) ≠ i := by omega
        have : (8 * j + (7 - t) < i + 1) ↔ (8 * j + (7 - t) < i) := by omega
        simp [ht, hm, this]
    · simp [ht]
  · have : ¬ (i / 8 = j ∧ i / 8 < data.length) := fun hh => hj0 hh.1
    rw [if_neg this, hd.2 j t hj]
    by_cases ht : t < 8
    · have h1 : 8 * j + (7 - t) ≠ i := by omega
      have : (8 * j + (7 - t) < i + 1) ↔ (8 * j + (7 - t) < i) := by omega
      simp [this]
    · simp [ht]

theorem bitsUpTo_forty (b : Nat → Bool) (data : List Nat) (hd : BitsUpTo b 40 data) :
    data.length = 5 ∧ (∀ i, i < 40 → (data.getD (i / 8) 0).testBit (7 - i % 8) = b i) ∧
      ∀ j, data.getD j 0 < 256 := by
  refine ⟨hd.1, ?_, ?_⟩
  · intro i hi
    rw [hd.2 (i / 8) (7 - i % 8) (by omega)]
    have h1 : 7 - i % 8 < 8 := by omega
    have h2 : 8 * (i / 8) + (7 - (7 - i % 8)) = i := by omega
    rw [h2]
    simp [h1, hi]
  · intro j
    by_cases hj : j < 5
    · have : data.getD j 0 < 2 ^ 8 := by
        apply Nat.lt_pow_two_of_testBit
        intro t ht
        rw [hd.2 j t hj]
        have : ¬ t < 8 := by omega
        simp [this]
      simpa using this
    · have : data.getD j 0 = 0 := by
        simp only [List.getD_eq_getElem?_getD]
        rw [List.getElem?_eq_none (by rw [hd.1]; omega)]
        rfl
      rw [this]; norm_num

/-- The decode loop on a line that presents `n` more pulses, from bit `i` on. -/
theorem readBits_pulses (H : Header) (hT : H.DHT11_TIMEOUT_ERROR < 0) (E : Env) (pin : Int)
    (p : Nat) (b : Nat → Bool) (lo hi : Nat → Nat)
    (hline : ∀ i, i < 40 → Pulse E (bitStart p lo hi i) (lo i) (hi i) ∧ lo i ≤ 51 ∧ hi i ≤ 71 ∧
      (b i = true ↔ 28 < hi i)) :
    ∀ (n i : Nat) (data : List Nat) (h : Hw), n + i = 40 → h.polls = bitStart p lo hi i →
      BitsUpTo b i data →
      ∃ out h1, readBits H E pin n i data h = some (Decoded.payload out, h1) ∧
        BitsUpTo b 40 out ∧ h1.polls = bitStart p lo hi 40 ∧ h1.clockReads = h.clockReads := by
  intro n
  induction n with
  | zero =>
    intro i data h hn hp hd
    have : i = 40 := by omega
    subst this
    exact ⟨data, h, rfl, hd, hp, rfl⟩
  | succ n ih =>
    intro i data h hn hp hd
    obtain ⟨hpulse, hlo, hhi, hb⟩ := hline i (by omega)
    rw [← hp] at hpulse
    obtain ⟨h2, p2, c2, estep⟩ := readBits_step H hT E pin h (lo i) (hi i) hpulse hlo hhi
    have hd2 : BitsUpTo b (i + 1) (if 28 < hi i then setBit data i else data) := by
      by_cases hw : 28 < hi i
      · rw [if_pos hw]; exact bitsUpTo_set b i data (hb.mpr hw) hd
      · rw [if_neg hw]
        exact bitsUpTo_keep b i data (by
          cases hbi : b i with
          | false => rfl
          | true => exact absurd (hb.mp hbi) hw) hd
    obtain ⟨out, h3, e3, hout, p3, c3⟩ := ih (i + 1) _ h2 (by omega)
      (by rw [p2, hp]; simp [bitStart]) hd2
    exact ⟨out, h3, by rw [estep, e3], hout, p3, by omega⟩

/-! ## Fresh attempts on shaped lines -/

@[simp] theorem sendStartSignal_twoClocks_polls (E : Env) (pin : Int) (h : Hw) :
    (_sendStartSignal pin (esp_timer_get_time E (esp_timer_get_time E h).2).2).polls = h.polls := rfl

theorem acquire_timeout (H : Header) (E : Env) (pin : Int) (h h1 : Hw)
    (e : _checkResponse H E pin (_sendStartSignal pin h) = some (H.DHT11_TIMEOUT_ERROR, h1)) :
    acquire H E pin h = some (Decoded.timedOut, h1) := by
  simp [acquire, e]

theorem acquire_ack (H : Header) (hO : H.DHT11_OK ≠ H.DHT11_TIMEOUT_ERROR) (E : Env) (pin : Int)
    (h h1 : Hw) (e : _checkResponse H E pin (_sendStartSignal pin h) = some (H.DHT11_OK, h1)) :
    acquire H E pin h = readBits H E pin 40 0 [0, 0, 0, 0, 0] h1 := by
  simp [acquire, e, hO]

/-- A fresh attempt on a line that presents the acknowledgement pulse and then
the 40 bit pulses captures the bits, most significant bit of each byte first. -/
theorem acquire_pulses (H : Header) (hT : H.DHT11_TIMEOUT_ERROR < 0)
    (hO : H.DHT11_OK ≠ H.DHT11_TIMEOUT_ERROR) (E : Env) (pin : Int) (h : Hw)
    (a c : Nat) (hack : Pulse E h.polls a c) (ha : a ≤ 81) (hc : c ≤ 81)
    (b : Nat → Bool) (lo hi : Nat → Nat)
    (hline : ∀ i, i < 40 → Pulse E (bitStart (h.polls + a + c + 2) lo hi i) (lo i) (hi i) ∧
      lo i ≤ 51 ∧ hi i ≤ 71 ∧ (b i = true ↔ 28 < hi i)) :
    ∃ data h1, acquire H E pin h = some (Decoded.payload data, h1) ∧
      data.length = 5 ∧
      (∀ i, i < 40 → (data.getD (i / 8) 0).testBit (7 - i % 8) = b i) ∧
      ∀ j, data.getD j 0 < 256 := by
  obtain ⟨h3, e3, p3, -⟩ := checkResponse_pulse H hT E pin (_sendStartSignal pin h) a c
    (by simpa using hack) ha hc
  simp only [sendStartSignal_polls] at p3
  obtain ⟨out, h4, e4, hout, -, -⟩ := readBits_pulses H hT E pin (h.polls + a + c + 2) b lo hi hline
    40 0 [0, 0, 0, 0, 0] h3 rfl (by simpa [bitStart] using p3) (bitsUpTo_zero b)
  obtain ⟨hlen, hbits, hlt⟩ := bitsUpTo_forty b out hout
  exact ⟨out, h4, by rw [acquire_ack H hO E pin h h3 e3, e4], hlen, hbits, hlt⟩

/-- The decode loop on a line that stays high: every low wait returns 0 at
once, every high wait times out, and no bit is set. -/
theorem readBits_stuck_high (H : Header) (hT : H.DHT11_TIMEOUT_ERROR < 0) (E : Env) (pin : Int) :
    ∀ (n i : Nat) (data : List Nat) (h : Hw), (∀ k, E.line (h.polls + k) = true) →
      ∃ h1, readBits H E pin n i data h = some (Decoded.payload data, h1) ∧
        h1.polls = h.polls + n * 73 := by
  intro n
  induction n with
  | zero => intro i data h _; exact ⟨h, rfl, by omega⟩
  | succ n ih =>
    intro i data h hhigh
    obtain ⟨h1, e1, p1, -⟩ := waitOrTimeout_exit H E pin 50 0 0 h (by intro j hj; omega)
      (by have := hhigh 0; rw [Nat.add_zero] at this ⊢; rw [this]; simp) (by omega)
    obtain ⟨h2, e2, p2, -⟩ := waitOrTimeout_timeout H E pin 70 1 h1
      (by intro j _; rw [p1, show h.polls + 0 + 1 + j = h.polls + (1 + j) by omega, hhigh]; rfl)
    obtain ⟨h3, e3, p3⟩ := ih (i + 1) data h2
      (by intro k; rw [p2, p1, show h.polls + 0 + 1 + 70 + 2 + k = h.polls + (73 + k) by omega]
          exact hhigh _)
    have t1 : ¬ (((0 : Nat) : Int) = H.DHT11_TIMEOUT_ERROR) := by omega
    have t2 : ¬ (H.DHT11_TIMEOUT_ERROR > 28) := by omega
    exact ⟨h3, by simp only [readBits, e1, t1, e2, t2, if_false]; exact e3, by omega⟩

/-- A line that goes high for good after the acknowledgement is read as the
all-zero payload, which passes the checksum. -/
theorem stuck_high_success (H : Header) (hT : H.DHT11_TIMEOUT_ERROR < 0)
    (hO : H.DHT11_OK ≠ H.DHT11_TIMEOUT_ERROR) (hC : H.DHT11_OK ≠ H.DHT11_CRC_ERROR)
    (E : Env) (d : Driver) (h : Hw)
    (hfresh : ¬ E.clock h.clockReads - 2000000 < d.last_read_time)
    (a c : Nat) (hack : Pulse E h.polls a c) (ha : a ≤ 81) (hc : c ≤ 81)
    (hhigh : ∀ k, E.line (h.polls + a + c + 2 + k) = true) :
    (DHT11_read H E d h).map Prod.fst =
      some { status := H.DHT11_OK, temperature := 0, humidity := 0 } := by
  obtain ⟨h3, e3, p3, -⟩ := checkResponse_pulse H hT E d.dht_gpio
    (_sendStartSignal d.dht_gpio (esp_timer_get_time E (esp_timer_get_time E h).2).2) a c
    (by simpa using hack) ha hc
  simp only [sendStartSignal_twoClocks_polls] at p3
  obtain ⟨h4, e4, -⟩ := readBits_stuck_high H hT E d.dht_gpio 40 0 [0, 0, 0, 0, 0] h3
    (by intro k; rw [p3]; exact hhigh k)
  have hc0 : _checkCRC H [0, 0, 0, 0, 0] ≠ H.DHT11_CRC_ERROR := by
    simp [_checkCRC]; exact hC
  rw [DHT11_read_fresh H E d h hfresh,
    freshRead_payload H E { d with last_read_time := E.clock (h.clockReads + 1) } _ h4
      [0, 0, 0, 0, 0] (by rw [acquire_ack H hO E _ _ h3 e3, e4]),
    finishRead_ok H _ _ hc0]
  rfl

/-- The decode loop on `m` pulses followed by a low phase of 52 polls. -/
theorem readBits_dropout (H : Header) (hT : H.DHT11_TIMEOUT_ERROR < 0) (E : Env) (pin : Int)
    (p : Nat) (lo hi : Nat → Nat) (k : Nat)
    (hbits : ∀ i, i < k → Pulse E (bitStart p lo hi i) (lo i) (hi i) ∧ lo i ≤ 51 ∧ hi i ≤ 71)
    (hlow : ∀ j, j ≤ 51 → E.line (bitStart p lo hi k + j) = false) :
    ∀ (m n i : Nat) (data : List Nat) (h : Hw), i + m = k → m < n →
      h.polls = bitStart p lo hi i →
      ∃ h1, readBits H E pin n i data h = some (Decoded.timedOut, h1) ∧
        h1.polls = bitStart p lo hi k + 52 ∧ h1.clockReads = h.clockReads := by
  intro m
  induction m with
  | zero =>
    intro n i data h hik hn hp
    obtain ⟨n1, rfl⟩ : ∃ n1, n = n1 + 1 := ⟨n - 1, by omega⟩
    have : i = k := by omega
    subst this
    obtain ⟨h1, e1, p1, c1⟩ := readBits_low_timeout H E pin h (by rw [hp]; exact hlow) n1 i data
    exact ⟨h1, e1, by omega, c1⟩
  | succ m ih =>
    intro n i data h hik hn hp
    obtain ⟨n1, rfl⟩ : ∃ n1, n = n1 + 1 := ⟨n - 1, by omega⟩
    obtain ⟨hpulse, hlo, hhi⟩ := hbits i (by omega)
    rw [← hp] at hpulse
    obtain ⟨h2, p2, c2, estep⟩ := readBits_step H hT E pin h (lo i) (hi i) hpulse hlo hhi
    obtain ⟨h3, e3, p3, c3⟩ := ih n1 (i + 1) (if 28 < hi i then setBit data i else data) h2
      (by omega) (by omega) (by rw [p2, hp]; simp [bitStart])
    exact ⟨h3, by rw [estep, e3], p3, by omega⟩

/-- The acknowledgement check on a line that does not move. -/
theorem checkResponse_silent (H : Header) (E : Env) (pin : Int) (h : Hw)
    (hsilent : (∀ k, k < 2 * 82 → E.line (h.polls + k) = false) ∨
      (∀ k, k < 2 * 82 → E.line (h.polls + k) = true)) :
    ∃ h1, _checkResponse H E pin h = some (H.DHT11_TIMEOUT_ERROR, h1) ∧
      h.polls < h1.polls ∧ h1.polls ≤ h.polls + 2 * 82 := by
  rcases hsilent with hlow | hhigh
  · obtain ⟨h1, e1, p1, -⟩ := waitOrTimeout_timeout H E pin 80 0 h
      (by intro j hj; rw [hlow j (by omega)]; rfl)
    exact ⟨h1, by simp [_checkResponse, e1], by omega, by omega⟩
  · obtain ⟨h1, e1, p1, -⟩ := waitOrTimeout_exit H E pin 80 0 0 h (by intro j hj; omega)
      (by have := hhigh 0 (by omega); rw [Nat.add_zero] at this ⊢; rw [this]; simp) (by omega)
    by_cases t1 : ((0 : Nat) : Int) = H.DHT11_TIMEOUT_ERROR
    · exact ⟨h1, by simp only [_checkResponse, e1, t1, if_true], by omega, by omega⟩
    · obtain ⟨h2, e2, p2, -⟩ := waitOrTimeout_timeout H E pin 80 1 h1
        (by intro j hj
            rw [p1, show h.polls + 0 + 1 + j = h.polls + (1 + j) by omega, hhigh _ (by omega)]; rfl)
      exact ⟨h2, by simp only [_checkResponse, e1, t1, e2, if_true, if_false], by omega, by omega⟩

/-- A fresh attempt whose decode loop meets, after `k` pulses, a low phase of
52 polls: the Timeout reading is returned and cached. -/
theorem dropout_read (H : Header) (hT : H.DHT11_TIMEOUT_ERROR < 0)
    (hO : H.DHT11_OK ≠ H.DHT11_TIMEOUT_ERROR) (E : Env) (d : Driver) (h : Hw)
    (hfresh : ¬ E.clock h.clockReads - 2000000 < d.last_read_time)
    (a c : Nat) (hack : Pulse E h.polls a c) (ha : a ≤ 81) (hc : c ≤ 81)
    (k : Nat) (hk : k < 40) (lo hi : Nat → Nat)
    (hbits : ∀ i, i < k →
      Pulse E (bitStart (h.polls + a + c + 2) lo hi i) (lo i) (hi i) ∧ lo i ≤ 51 ∧ hi i ≤ 71)
    (hlow : ∀ j, j ≤ 51 → E.line (bitStart (h.polls + a + c + 2) lo hi k + j) = false) :
    ∃ h1, DHT11_read H E d h =
      some ({ status := H.DHT11_TIMEOUT_ERROR, temperature := -1, humidity := -1 },
            { dht_gpio := d.dht_gpio, last_read_time := E.clock (h.clockReads + 1),
              last_read := { status := H.DHT11_TIMEOUT_ERROR, temperature := -1, humidity := -1 } },
            h1) ∧
      h1.polls = bitStart (h.polls + a + c + 2) lo hi k + 52 ∧
      h1.clockReads = h.clockReads + 2 := by
  obtain ⟨h3, e3, p3, c3⟩ := checkResponse_pulse H hT E d.dht_gpio
    (_sendStartSignal d.dht_gpio (esp_timer_get_time E (esp_timer_get_time E h).2).2) a c
    (by simpa using hack) ha hc
  simp only [sendStartSignal_twoClocks_polls] at p3
  obtain ⟨h4, e4, p4, c4⟩ := readBits_dropout H hT E d.dht_gpio (h.polls + a + c + 2) lo hi k
    hbits hlow k 40 0 [0, 0, 0, 0, 0] h3 (by omega) hk (by simpa [bitStart] using p3)
  refine ⟨h4, ?_, p4, by rw [c4, c3]; rfl⟩
  rw [DHT11_read_fresh H E d h hfresh,
    freshRead_timedOut H E { d with last_read_time := E.clock (h.clockReads + 1) } _ h4
      (by rw [acquire_ack H hO E _ _ h3 e3, e4])]
  rfl

/-! ## The log of hardware operations -/

@[simp] theorem gpio_get_level_trace (E : Env) (pin : Int) (h : Hw) :
    (gpio_get_level E pin h).2.trace =
      h.trace ++ [Event.get_level pin (levelOf (E.line h.polls))] := rfl

@[simp] theorem ets_delay_us_trace (us : Nat) (h : Hw) :
    (ets_delay_us us h).trace = h.trace ++ [Event.delay_us us] := rfl

/-- The log after the loop is the log before it followed by a level read and
whatever came after. -/
theorem waitLoop_trace (H : Header) (E : Env) (pin : Int) (T : Nat) (level : Int) :
    ∀ (fuel ticks : Nat) (h : Hw) (r : Int) (h1 : Hw),
      waitLoop H E pin T level fuel ticks h = some (r, h1) →
      ∃ l, h1.trace = h.trace ++ Event.get_level pin (levelOf (E.line h.polls)) :: l := by
  intro fuel
  induction fuel with
  | zero => intro ticks h r h1 e; simp [waitLoop] at e
  | succ f ih =>
    intro ticks h r h1 e
    by_cases h0 : levelOf (E.line h.polls) = level
    · by_cases hgt : ticks > T
      · simp only [waitLoop, gpio_get_level_val, h0, hgt, if_true, Option.some.injEq,
          Prod.mk.injEq] at e
        exact ⟨[], by rw [← e.2]; rfl⟩
      · simp only [waitLoop, gpio_get_level_val, h0, hgt, if_true, if_false] at e
        obtain ⟨l, hl⟩ := ih _ _ _ _ e
        refine ⟨Event.delay_us 1 :: Event.get_level pin
          (levelOf (E.line (ets_delay_us 1 (gpio_get_level E pin h).2).polls)) :: l, ?_⟩
        rw [hl]
        simp
    · simp only [waitLoop, gpio_get_level_val, h0, if_false, Option.some.injEq,
        Prod.mk.injEq] at e
      exact ⟨[], by rw [← e.2]; rfl⟩

theorem checkResponse_trace (H : Header) (E : Env) (pin : Int) (h : Hw) (r : Int) (h1 : Hw)
    (e : _checkResponse H E pin h = some (r, h1)) :
    ∃ l, h1.trace = h.trace ++ Event.get_level pin (levelOf (E.line h.polls)) :: l := by
  obtain ⟨r1, g1, e1, -⟩ := waitOrTimeout_total H E pin 80 0 h
  obtain ⟨l1, t1⟩ := waitLoop_trace H E pin 80 0 _ _ h r1 g1 e1
  by_cases c1 : r1 = H.DHT11_TIMEOUT_ERROR
  · simp only [_checkResponse, e1, c1, if_true, Option.some.injEq, Prod.mk.injEq] at e
    exact ⟨l1, by rw [← e.2]; exact t1⟩
  · obtain ⟨r2, g2, e2, -⟩ := waitOrTimeout_total H E pin 80 1 g1
    obtain ⟨l2, t2⟩ := waitLoop_trace H E pin 80 1 _ _ g1 r2 g2 e2
    have : h1 = g2 := by
      by_cases c2 : r2 = H.DHT11_TIMEOUT_ERROR
      · simp only [_checkResponse, e1, c1, e2, c2, if_true, if_false, Option.some.injEq,
          Prod.mk.injEq] at e
        exact e.2.symm
      · simp only [_checkResponse, e1, c1, e2, c2, if_false, Option.some.injEq,
          Prod.mk.injEq] at e
        exact e.2.symm
    subst this
    exact ⟨l1 ++ Event.get_level pin (levelOf (E.line g1.polls)) :: l2, by rw [t2, t1]; simp⟩

theorem readBits_trace (H : Header) (E : Env) (pin : Int) :
    ∀ (n i : Nat) (data : List Nat) (h : Hw) (res : Decoded) (h1 : Hw),
      readBits H E pin n i data h = some (res, h1) → ∃ l, h1.trace = h.trace ++ l := by
  intro n
  induction n with
  | zero =>
    intro i data h res h1 e
    simp only [readBits, Option.some.injEq, Prod.mk.injEq] at e
    exact ⟨[], by rw [← e.2]; simp⟩
  | succ n ih =>
    intro i data h res h1 e
    obtain ⟨r1, g1, e1, -⟩ := waitOrTimeout_total H E pin 50 0 h
    obtain ⟨l1, t1⟩ := waitLoop_trace H E pin 50 0 _ _ h r1 g1 e1
    by_cases c1 : r1 = H.DHT11_TIMEOUT_ERROR
    · simp only [readBits, e1, c1, if_true, Option.some.injEq, Prod.mk.injEq] at e
      exact ⟨_, by rw [← e.2]; exact t1⟩
    · obtain ⟨r2, g2, e2, -⟩ := waitOrTimeout_total H E pin 70 1 g1
      obtain ⟨l2, t2⟩ := waitLoop_trace H E pin 70 1 _ _ g1 r2 g2 e2
      by_cases hw : r2 > 28
      · simp only [readBits, e1, c1, e2, hw, if_true, if_false] at e
        obtain ⟨l3, t3⟩ := ih _ _ _ _ _ e
        exact ⟨_, by rw [t3, t2, t1, List.append_assoc, List.append_assoc]⟩
      · simp only [readBits, e1, c1, e2, hw, if_false] at e
        obtain ⟨l3, t3⟩ := ih _ _ _ _ _ e
        exact ⟨_, by rw [t3, t2, t1, List.append_assoc, List.append_assoc]⟩

/-- The log of a fresh attempt: the six operations of the start signal, then a
level read, then the rest. -/
theorem acquire_trace (H : Header) (E : Env) (pin : Int) (h : Hw) (res : Decoded) (h1 : Hw)
    (e : acquire H E pin h = some (res, h1)) :
    ∃ l, h1.trace = h.trace ++
      (Event.set_direction pin gpio_mode_t.GPIO_MODE_OUTPUT :: Event.set_level pin 0 ::
        Event.delay_us 20000 :: Event.set_level pin 1 :: Event.delay_us 40 ::
        Event.set_direction pin gpio_mode_t.GPIO_MODE_INPUT ::
        Event.get_level pin (levelOf (E.line h.polls)) :: l) := by
  obtain ⟨r1, g1, e1, -⟩ := checkResponse_total H E pin (_sendStartSignal pin h)
  obtain ⟨l1, t1⟩ := checkResponse_trace H E pin _ r1 g1 e1
  have ts : (_sendStartSignal pin h).trace = h.trace ++
      [Event.set_direction pin gpio_mode_t.GPIO_MODE_OUTPUT, Event.set_level pin 0,
        Event.delay_us 20000, Event.set_level pin 1, Event.delay_us 40,
        Event.set_direction pin gpio_mode_t.GPIO_MODE_INPUT] := by
    simp [_sendStartSignal, gpio_set_direction, gpio_set_level, ets_delay_us]
  rw [ts, sendStartSignal_polls] at t1
  by_cases c1 : r1 = H.DHT11_TIMEOUT_ERROR
  · simp only [acquire, e1, c1, if_true, Option.some.injEq, Prod.mk.injEq] at e
    exact ⟨l1, by rw [← e.2, t1]; simp⟩
  · simp only [acquire, e1, c1, if_false] at e
    obtain ⟨l2, t2⟩ := readBits_trace H E pin _ _ _ _ _ _ e
    exact ⟨l1 ++ l2, by rw [t2, t1]; simp⟩

/-- What a call that is not throttled does to the state. -/
theorem fresh_effect (H : Header) (E : Env) (d : Driver) (h : Hw)
    (hfresh : ¬ E.clock h.clockReads - 2000000 < d.last_read_time) :
    ∃ r h1 l, DHT11_read H E d h =
        some (r, { dht_gpio := d.dht_gpio, last_read_time := E.clock (h.clockReads + 1),
                   last_read := r }, h1) ∧
      h.polls < h1.polls ∧ h1.polls ≤ h.polls + 2 * 82 + 40 * (52 + 72) ∧
      h1.clockReads = h.clockReads + 2 ∧
      h1.trace = h.trace ++
        (Event.get_time (E.clock h.clockReads) ::
          Event.get_time (E.clock (h.clockReads + 1)) ::
          Event.set_direction d.dht_gpio gpio_mode_t.GPIO_MODE_OUTPUT ::
          Event.set_level d.dht_gpio 0 :: Event.delay_us 20000 ::
          Event.set_level d.dht_gpio 1 :: Event.delay_us 40 ::
          Event.set_direction d.dht_gpio gpio_mode_t.GPIO_MODE_INPUT ::
          Event.get_level d.dht_gpio (levelOf (E.line h.polls)) :: l) := by
  obtain ⟨res, h1, e1, p1, q1, c1, -⟩ :=
    acquire_total H E d.dht_gpio (esp_timer_get_time E (esp_timer_get_time E h).2).2
  obtain ⟨l, tl⟩ := acquire_trace H E d.dht_gpio _ res h1 e1
  simp only [esp_timer_get_time_polls, esp_timer_get_time_clockReads,
    esp_timer_get_time_trace] at p1 q1 c1 tl
  replace tl : h1.trace = h.trace ++
        (Event.get_time (E.clock h.clockReads) ::
          Event.get_time (E.clock (h.clockReads + 1)) ::
          Event.set_direction d.dht_gpio gpio_mode_t.GPIO_MODE_OUTPUT ::
          Event.set_level d.dht_gpio 0 :: Event.delay_us 20000 ::
          Event.set_level d.dht_gpio 1 :: Event.delay_us 40 ::
          Event.set_direction d.dht_gpio gpio_mode_t.GPIO_MODE_INPUT ::
          Event.get_level d.dht_gpio (levelOf (E.line h.polls)) :: l) := by
    rw [tl]; simp
  cases res with
  | timedOut =>
    exact ⟨_timeoutError H, h1, l, by
      rw [DHT11_read_fresh H E d h hfresh,
        freshRead_timedOut H E { d with last_read_time := E.clock (h.clockReads + 1) } _ h1 e1],
      p1, q1, c1, tl⟩
  | payload data =>
    by_cases hc : _checkCRC H data ≠ H.DHT11_CRC_ERROR
    · exact ⟨_, h1, l, by
        rw [DHT11_read_fresh H E d h hfresh,
          freshRead_payload H E { d with last_read_time := E.clock (h.clockReads + 1) } _ h1
            data e1, finishRead_ok H _ data hc],
        p1, q1, c1, tl⟩
    · exact ⟨_crcError H, h1, l, by
        rw [DHT11_read_fresh H E d h hfresh,
          freshRead_payload H E { d with last_read_time := E.clock (h.clockReads + 1) } _ h1
            data e1, finishRead_crc H _ data (not_not.mp hc)],
        p1, q1, c1, tl⟩

/-- The loop adds only level reads and delays to the log: no clock read. -/
theorem waitLoop_quiet (H : Header) (E : Env) (pin : Int) (T : Nat) (level : Int) :
    ∀ (fuel ticks : Nat) (h : Hw) (r : Int) (h1 : Hw),
      waitLoop H E pin T level fuel ticks h = some (r, h1) →
      ∃ l, h1.trace = h.trace ++ l ∧ ∀ e, e ∈ l → ∀ v, e ≠ Event.get_time v := by
  intro fuel
  induction fuel with
  | zero => intro ticks h r h1 e; simp [waitLoop] at e
  | succ f ih =>
    intro ticks h r h1 e
    by_cases h0 : levelOf (E.line h.polls) = level
    · by_cases hgt : ticks > T
      · simp only [waitLoop, gpio_get_level_val, h0, hgt, if_true, Option.some.injEq,
          Prod.mk.injEq] at e
        refine ⟨[Event.get_level pin (levelOf (E.line h.polls))], by rw [← e.2]; rfl, ?_⟩
        intro ev hev v
        simp only [List.mem_singleton] at hev
        rw [hev]; exact fun hh => Event.noConfusion hh
      · simp only [waitLoop, gpio_get_level_val, h0, hgt, if_true, if_false] at e
        obtain ⟨l, hl, hq⟩ := ih _ _ _ _ e
        refine ⟨Event.get_level pin (levelOf (E.line h.polls)) :: Event.delay_us 1 :: l, ?_, ?_⟩
        · rw [hl]; simp
        · intro ev hev v
          simp only [List.mem_cons] at hev
          rcases hev with hev | hev | hev
          · rw [hev]; exact fun hh => Event.noConfusion hh
          · rw [hev]; exact fun hh => Event.noConfusion hh
          · exact hq ev hev v
    · simp only [waitLoop, gpio_get_level_val, h0, if_false, Option.some.injEq,
        Prod.mk.injEq] at e
      refine ⟨[Event.get_level pin (levelOf (E.line h.polls))], by rw [← e.2]; rfl, ?_⟩
      intro ev hev v
      simp only [List.mem_singleton] at hev
      rw [hev]; exact fun hh => Event.noConfusion hh

theorem quiet_append {a b : List Event} (ha : ∀ e, e ∈ a → ∀ v, e ≠ Event.get_time v)
    (hb : ∀ e, e ∈ b → ∀ v, e ≠ Event.get_time v) :
    ∀ e, e ∈ a ++ b → ∀ v, e ≠ Event.get_time v := by
  intro e he v
  rcases List.mem_append.mp he with h | h
  · exact ha e h v
  · exact hb e h v

theorem checkResponse_quiet (H : Header) (E : Env) (pin : Int) (h : Hw) (r : Int) (h1 : Hw)
    (e : _checkResponse H E pin h = some (r, h1)) :
    ∃ l, h1.trace = h.trace ++ l ∧ ∀ e, e ∈ l → ∀ v, e ≠ Event.get_time v := by
  obtain ⟨r1, g1, e1, -⟩ := waitOrTimeout_total H E pin 80 0 h
  obtain ⟨l1, t1, q1⟩ := waitLoop_quiet H E pin 80 0 _ _ h r1 g1 e1
  by_cases c1 : r1 = H.DHT11_TIMEOUT_ERROR
  · simp only [_checkResponse, e1, c1, if_true, Option.some.injEq, Prod.mk.injEq] at e
    exact ⟨l1, by rw [← e.2]; exact t1, q1⟩
  · obtain ⟨r2, g2, e2, -⟩ := waitOrTimeout_total H E pin 80 1 g1
    obtain ⟨l2, t2, q2⟩ := waitLoop_quiet H E pin 80 1 _ _ g1 r2 g2 e2
    have : h1 = g2 := by
      by_cases c2 : r2 = H.DHT11_TIMEOUT_ERROR
      · simp only [_checkResponse, e1, c1, e2, c2, if_true, if_false, Option.some.injEq,
          Prod.mk.injEq] at e
        exact e.2.symm
      · simp only [_checkResponse, e1, c1, e2, c2, if_false, Option.some.injEq,
          Prod.mk.injEq] at e
        exact e.2.symm
    subst this
    exact ⟨l1 ++ l2, by rw [t2, t1, List.append_assoc], quiet_append q1 q2⟩

theorem readBits_quiet (H : Header) (E : Env) (pin : Int) :
    ∀ (n i : Nat) (data : List Nat) (h : Hw) (res : Decoded) (h1 : Hw),
      readBits H E pin n i data h = some (res, h1) →
      ∃ l, h1.trace = h.trace ++ l ∧ ∀ e, e ∈ l → ∀ v, e ≠ Event.get_time v := by
  intro n
  induction n with
  | zero =>
    intro i data h res h1 e
    simp only [readBits, Option.some.injEq, Prod.mk.injEq] at e
    exact ⟨[], by rw [← e.2]; simp, by intro ev hev; simp at hev⟩
  | succ n ih =>
    intro i data h res h1 e
    obtain ⟨r1, g1, e1, -⟩ := waitOrTimeout_total H E pin 50 0 h
    obtain ⟨l1, t1, q1⟩ := waitLoop_quiet H E pin 50 0 _ _ h r1 g1 e1
    by_cases c1 : r1 = H.DHT11_TIMEOUT_ERROR
    · simp only [readBits, e1, c1, if_true, Option.some.injEq, Prod.mk.injEq] at e
      exact ⟨l1, by rw [← e.2]; exact t1, q1⟩
    · obtain ⟨r2, g2, e2, -⟩ := waitOrTimeout_total H E pin 70 1 g1
      obtain ⟨l2, t2, q2⟩ := waitLoop_quiet H E pin 70 1 _ _ g1 r2 g2 e2
      by_cases hw : r2 > 28
      · simp only [readBits, e1, c1, e2, hw, if_true, if_false] at e
        obtain ⟨l3, t3, q3⟩ := ih _ _ _ _ _ e
        exact ⟨l1 ++ (l2 ++ l3), by rw [t3, t2, t1, List.append_assoc, List.append_assoc],
          quiet_append q1 (quiet_append q2 q3)⟩
      · simp only [readBits, e1, c1, e2, hw, if_false] at e
        obtain ⟨l3, t3, q3⟩ := ih _ _ _ _ _ e
        exact ⟨l1 ++ (l2 ++ l3), by rw [t3, t2, t1, List.append_assoc, List.append_assoc],
          quiet_append q1 (quiet_append q2 q3)⟩

/-- The hardware part of an attempt reads no clock. -/
theorem acquire_quiet (H : Header) (E : Env) (pin : Int) (h : Hw) (res : Decoded) (h1 : Hw)
    (e : acquire H E pin h = some (res, h1)) :
    ∃ l, h1.trace = h.trace ++ l ∧ ∀ e, e ∈ l → ∀ v, e ≠ Event.get_time v := by
  obtain ⟨r1, g1, e1, -⟩ := checkResponse_total H E pin (_sendStartSignal pin h)
  obtain ⟨l1, t1, q1⟩ := checkResponse_quiet H E pin _ r1 g1 e1
  have ts : (_sendStartSignal pin h).trace = h.trace ++
      [Event.set_direction pin gpio_mode_t.GPIO_MODE_OUTPUT, Event.set_level pin 0,
        Event.delay_us 20000, Event.set_level pin 1, Event.delay_us 40,
        Event.set_direction pin gpio_mode_t.GPIO_MODE_INPUT] := by
    simp [_sendStartSignal, gpio_set_direction, gpio_set_level, ets_delay_us]
  have qs : ∀ e, e ∈ [Event.set_direction pin gpio_mode_t.GPIO_MODE_OUTPUT, Event.set_level pin 0,
        Event.delay_us 20000, Event.set_level pin 1, Event.delay_us 40,
        Event.set_direction pin gpio_mode_t.GPIO_MODE_INPUT] → ∀ v, e ≠ Event.get_time v := by
    intro ev hev v
    simp only [List.mem_cons, List.mem_singleton, List.not_mem_nil, or_false] at hev
    rcases hev with hev | hev | hev | hev | hev | hev <;>
      (rw [hev]; exact fun hh => Event.noConfusion hh)
  rw [ts] at t1
  by_cases c1 : r1 = H.DHT11_TIMEOUT_ERROR
  · simp only [acquire, e1, c1, if_true, Option.some.injEq, Prod.mk.injEq] at e
    exact ⟨_, by rw [← e.2, t1, List.append_assoc], quiet_append qs q1⟩
  · simp only [acquire, e1, c1, if_false] at e
    obtain ⟨l2, t2, q2⟩ := readBits_quiet H E pin _ _ _ _ _ _ e
    exact ⟨_, by rw [t2, t1, List.append_assoc, List.append_assoc],
      quiet_append qs (quiet_append q1 q2)⟩

/-- The log of a call that is not throttled: its two clock reads, then the start
signal, then a level read, then operations none of which is a clock read. -/
theorem fresh_log (H : Header) (E : Env) (d : Driver) (h : Hw)
    (hfresh : ¬ E.clock h.clockReads - 2000000 < d.last_read_time) :
    ∃ r h1 l, DHT11_read H E d h =
        some (r, { dht_gpio := d.dht_gpio, last_read_time := E.clock (h.clockReads + 1),
                   last_read := r }, h1) ∧
      h1.clockReads = h.clockReads + 2 ∧
      h1.trace = h.trace ++
        (Event.get_time (E.clock h.clockReads) ::
          Event.get_time (E.clock (h.clockReads + 1)) ::
          Event.set_direction d.dht_gpio gpio_mode_t.GPIO_MODE_OUTPUT ::
          Event.set_level d.dht_gpio 0 :: Event.delay_us 20000 ::
          Event.set_level d.dht_gpio 1 :: Event.delay_us 40 ::
          Event.set_direction d.dht_gpio gpio_mode_t.GPIO_MODE_INPUT ::
          Event.get_level d.dht_gpio (levelOf (E.line h.polls)) :: l) ∧
      (∀ e, e ∈ l → ∀ v, e ≠ Event.get_time v) ∧
      (r = _timeoutError H ∨ r = _crcError H ∨ r.status = H.DHT11_OK) := by
  obtain ⟨r, h1, l, e, -, -, c, t⟩ := fresh_effect H E d h hfresh
  refine ⟨r, h1, l, e, c, t, ?_, ?_⟩
  · -- the part of the log written by `acquire` holds no clock read
    obtain ⟨res, g1, e1, -⟩ :=
      acquire_total H E d.dht_gpio (esp_timer_get_time E (esp_timer_get_time E h).2).2
    obtain ⟨l2, t2, q2⟩ := acquire_quiet H E d.dht_gpio _ res g1 e1
    have hg : g1 = h1 := by
      have e3 := DHT11_read_fresh H E d h hfresh
      rw [e] at e3
      cases res with
      | timedOut =>
        rw [freshRead_timedOut H E { d with last_read_time := E.clock (h.clockReads + 1) } _ g1
          e1] at e3
        simp only [Option.some.injEq, Prod.mk.injEq] at e3
        exact e3.2.2.symm
      | payload data =>
        rw [freshRead_payload H E { d with last_read_time := E.clock (h.clockReads + 1) } _ g1
          data e1] at e3
        simp only [Option.some.injEq, Prod.mk.injEq] at e3
        exact e3.2.2.symm
    subst hg
    simp only [esp_timer_get_time_trace] at t2
    rw [t] at t2
    have : l2 = Event.set_direction d.dht_gpio gpio_mode_t.GPIO_MODE_OUTPUT ::
          Event.set_level d.dht_gpio 0 :: Event.delay_us 20000 ::
          Event.set_level d.dht_gpio 1 :: Event.delay_us 40 ::
          Event.set_direction d.dht_gpio gpio_mode_t.GPIO_MODE_INPUT ::
          Event.get_level d.dht_gpio (levelOf (E.line h.polls)) :: l := by
      have t3 : h.trace ++ (Event.get_time (E.clock h.clockReads) ::
          Event.get_time (E.clock (h.clockReads + 1)) ::
          Event.set_direction d.dht_gpio gpio_mode_t.GPIO_MODE_OUTPUT ::
          Event.set_level d.dht_gpio 0 :: Event.delay_us 20000 ::
          Event.set_level d.dht_gpio 1 :: Event.delay_us 40 ::
          Event.set_direction d.dht_gpio gpio_mode_t.GPIO_MODE_INPUT ::
          Event.get_level d.dht_gpio (levelOf (E.line h.polls)) :: l) =
          h.trace ++ (Event.get_time (E.clock h.clockReads) ::
          Event.get_time (E.clock (h.clockReads + 1)) :: l2) := by
        rw [t2]; simp
      have := List.append_cancel_left t3
      simp only [List.cons.injEq, true_and] at this
      exact this.symm
    intro ev hev v
    apply q2 ev _ v
    rw [this]
    simp only [List.mem_cons]
    right; right; right; right; right; right; right
    exact hev
  · obtain ⟨r2, h2, e2, -, -, -, hr⟩ :=
      freshRead_cases H E { d with last_read_time := E.clock (h.clockReads + 1) }
        (esp_timer_get_time E (esp_timer_get_time E h).2).2
    have e3 := DHT11_read_fresh H E d h hfresh
    rw [e, e2] at e3
    simp only [Option.some.injEq, Prod.mk.injEq] at e3
    rw [e3.1]
    rcases hr with hr | hr | ⟨t, u, hr⟩
    · exact Or.inl hr
    · exact Or.inr (Or.inl hr)
    · exact Or.inr (Or.inr (by rw [hr]))

/-! ## Facts about the scenario lines -/

theorem envA_ack : Pulse envA hw0.polls 2 2 := by decide

theorem envA_pulses : ∀ i, i < 40 →
      Pulse envA (bitStart (hw0.polls + 2 + 2 + 2) (fun _ => 1)
          (fun i => widthOf (bitAt [55, 0, 26, 0, 81] i)) i) 1
        (widthOf (bitAt [55, 0, 26, 0, 81] i)) ∧
      1 ≤ 51 ∧ widthOf (bitAt [55, 0, 26, 0, 81] i) ≤ 71 ∧
      (bitAt [55, 0, 26, 0, 81] i = true ↔ 28 < widthOf (bitAt [55, 0, 26, 0, 81] i)) := by
  decide!

theorem envA_reading :
    (DHT11_read upstreamHeader envA initialDriver hw0).map Prod.fst =
      some { status := upstreamHeader.DHT11_OK, temperature := 26, humidity := 55 } := by
  decide!

theorem envStuckHigh_high (k : Nat) : envStuckHigh.line (hw0.polls + 2 + 2 + 2 + k) = true := by
  simp [envStuckHigh, hw0]

theorem envD_ack : Pulse envD hw0.polls 2 2 := by decide

theorem envD_pulses : ∀ i, i < 10 →
    Pulse envD (bitStart (hw0.polls + 2 + 2 + 2) (fun _ => 1)
        (fun i => widthOf (bitAt [55, 0, 26, 0, 81] i)) i) 1
      (widthOf (bitAt [55, 0, 26, 0, 81] i)) ∧
    1 ≤ 51 ∧ widthOf (bitAt [55, 0, 26, 0, 81] i) ≤ 71 := by
  decide!

theorem envD_low : ∀ j, j ≤ 51 →
    envD.line (bitStart (hw0.polls + 2 + 2 + 2) (fun _ => 1)
      (fun i => widthOf (bitAt [55, 0, 26, 0, 81] i)) 10 + j) = false := by
  decide!

theorem envWrap_payload :
    (acquire upstreamHeader envWrap initialDriver.dht_gpio
        (esp_timer_get_time envWrap (esp_timer_get_time envWrap hw0).2).2).map Prod.fst =
      some (Decoded.payload [200, 0, 100, 0, 44]) := by
  decide!

theorem envB_payload :
    (acquire upstreamHeader envB initialDriver.dht_gpio
        (esp_timer_get_time envB (esp_timer_get_time envB hw0).2).2).map Prod.fst =
      some (Decoded.payload [55, 0, 26, 0, 80]) := by
  decide!

/-- More fuel does not change what the loop returns. -/
theorem waitLoop_fuel_mono (H : Header) (E : Env) (pin : Int) (T : Nat) (level : Int) :
    ∀ (fuel ticks : Nat) (h : Hw) (x : Int × Hw),
      waitLoop H E pin T level fuel ticks h = some x →
      ∀ k, waitLoop H E pin T level (fuel + k) ticks h = some x := by
  intro fuel
  induction fuel with
  | zero => intro ticks h x e; simp [waitLoop] at e
  | succ f ih =>
    intro ticks h x e k
    rw [show f + 1 + k = (f + k) + 1 by omega]
    by_cases h0 : levelOf (E.line h.polls) = level
    · by_cases hgt : ticks > T
      · simp only [waitLoop, gpio_get_level_val, h0, hgt, if_true] at e ⊢
        exact e
      · simp only [waitLoop, gpio_get_level_val, h0, hgt, if_true, if_false] at e ⊢
        exact ih _ _ _ e k
    · simp only [waitLoop, gpio_get_level_val, h0, if_false] at e ⊢
      exact e

/-- A Success reading of a call that is not throttled: the attempt captured a
payload that passed `_checkCRC`, byte 0 is the humidity and byte 2 the
temperature. -/
theorem success_payload_exact (H : Header) (hT : H.DHT11_OK ≠ H.DHT11_TIMEOUT_ERROR)
    (hC : H.DHT11_OK ≠ H.DHT11_CRC_ERROR) (E : Env) (d : Driver) (h : Hw)
    (hfresh : ¬ E.clock h.clockReads - 2000000 < d.last_read_time)
    (r : dht11_reading) (e : (DHT11_read H E d h).map Prod.fst = some r)
    (hs : r.status = H.DHT11_OK) :
    ∃ data h1,
      acquire H E d.dht_gpio (esp_timer_get_time E (esp_timer_get_time E h).2).2 =
        some (Decoded.payload data, h1) ∧
      (∀ j, data.getD j 0 < 256) ∧
      data.getD 4 0 = data.getD 0 0 + data.getD 1 0 + data.getD 2 0 + data.getD 3 0 ∧
      r.humidity = (data.getD 0 0 : Nat) ∧ r.temperature = (data.getD 2 0 : Nat) := by
  rw [DHT11_read_fresh H E d h hfresh] at e
  obtain ⟨res, h1, e1, -, -, -, hout⟩ :=
    acquire_total H E d.dht_gpio (esp_timer_get_time E (esp_timer_get_time E h).2).2
  cases res with
  | timedOut =>
    rw [freshRead_timedOut H E { d with last_read_time := E.clock (h.clockReads + 1) } _ h1 e1] at e
    simp only [Option.map_some', Option.some.injEq] at e
    subst e
    exact absurd hs.symm hT
  | payload data =>
    rw [freshRead_payload H E { d with last_read_time := E.clock (h.clockReads + 1) } _ h1 data
      e1] at e
    simp only [Option.map_some', Option.some.injEq] at e
    obtain ⟨-, hlt⟩ := hout data rfl
    by_cases hsum : data.getD 4 0 = data.getD 0 0 + data.getD 1 0 + data.getD 2 0 + data.getD 3 0
    · have hc : _checkCRC H data ≠ H.DHT11_CRC_ERROR := by
        simp only [_checkCRC, hsum, if_true]; exact hC
      rw [finishRead_ok H _ data hc] at e
      subst e
      exact ⟨data, h1, e1, hlt, hsum, rfl, rfl⟩
    · have hc : _checkCRC H data = H.DHT11_CRC_ERROR := by
        simp only [_checkCRC, hsum, if_false]
      rw [finishRead_crc H _ data hc] at e
      subst e
      exact absurd hs.symm hC

theorem envLate_pulses : ∀ i, i < 10 →
    Pulse envLate (bitStart (hw0.polls + 2 + 2 + 2) (fun _ => 1)
        (fun i => widthOf (bitAt [55, 0, 26, 0, 81] i)) i) 1
      (widthOf (bitAt [55, 0, 26, 0, 81] i)) := by
  decide!

theorem envLate_low : ∀ j, j < 51 →
    envLate.line (bitStart (hw0.polls + 2 + 2 + 2) (fun _ => 1)
      (fun i => widthOf (bitAt [55, 0, 26, 0, 81] i)) 10 + j) = false := by
  decide!

theorem envLate_wait :
    (_waitOrTimeout upstreamHeader envLate 0 50 0
        { polls := bitStart (hw0.polls + 2 + 2 + 2) (fun _ => 1)
            (fun i => widthOf (bitAt [55, 0, 26, 0, 81] i)) 10,
          clockReads := 2, trace := [] }).map Prod.fst = some 51 := by
  decide!

theorem envLate_reading :
    (DHT11_read upstreamHeader envLate initialDriver hw0).map Prod.fst =
      some { status := upstreamHeader.DHT11_OK, temperature := 26, humidity := 55 } := by
  decide!

/-! ## Claims -/

/-- C1: in every reachable state a call of `DHT11_read` returns, and a returned
reading whose status is not `DHT11_OK` has temperature -1 and humidity -1,
whether it was produced by this call or served from the cache. The zero
initialised cache has status 0, which the header is taken to assign to
`DHT11_OK`. -/
theorem error_reading_has_sentinels (H : Header) (hOK : H.DHT11_OK = 0) (E : Env)
    (d : Driver) (h : Hw) (hr : Reachable H E d h) :
    (∃ r d1 h1, DHT11_read H E d h = some (r, d1, h1)) ∧
    ∀ r d1 h1, DHT11_read H E d h = some (r, d1, h1) →
      r.status ≠ H.DHT11_OK → r.temperature = -1 ∧ r.humidity = -1 := by
  obtain ⟨r0, d0, h0, e0, -, -⟩ := DHT11_read_cases H E d h
  refine ⟨⟨r0, d0, h0, e0⟩, ?_⟩
  intro r d1 h1 e
  have := reachable_cache H hOK E d1 h1 (Reachable.read d h r d1 h1 hr e)
  obtain ⟨r2, d2, h2, e2, hc, -⟩ := DHT11_read_cases H E d h
  rw [e] at e2
  simp only [Option.some.injEq, Prod.mk.injEq] at e2
  obtain ⟨rfl, rfl, rfl⟩ := e2
  rw [hc] at this
  exact this


theorem error_reading_has_sentinels_witness :
    upstreamHeader.DHT11_OK = 0 ∧ Reachable upstreamHeader envLow initialDriver hw0 ∧
    ((∃ r d1 h1, DHT11_read upstreamHeader envLow initialDriver hw0 = some (r, d1, h1)) ∧
      ∀ r d1 h1, DHT11_read upstreamHeader envLow initialDriver hw0 = some (r, d1, h1) →
        r.status ≠ upstreamHeader.DHT11_OK → r.temperature = -1 ∧ r.humidity = -1) :=
  ⟨rfl, Reachable.start hw0,
    error_reading_has_sentinels upstreamHeader rfl envLow initialDriver hw0 (Reachable.start hw0)⟩

/-- C2 (failing input): the payload 200, 0, 100, 0, 44 has its last byte equal to
the low 8 bits of the sum 300 of the first four, yet `_checkCRC` answers
`DHT11_CRC_ERROR`, and the call that captures this payload returns the CRC
reading instead of Success with humidity 200 and temperature 100. -/
theorem checksum_wraparound_rejected :
    (44 : Nat) = (200 + 0 + 100 + 0) % 256 ∧
    _checkCRC upstreamHeader [200, 0, 100, 0, 44] = upstreamHeader.DHT11_CRC_ERROR ∧
    (acquire upstreamHeader envWrap initialDriver.dht_gpio
        (esp_timer_get_time envWrap (esp_timer_get_time envWrap hw0).2).2).map Prod.fst =
      some (Decoded.payload [200, 0, 100, 0, 44]) ∧
    (DHT11_read upstreamHeader envWrap initialDriver hw0).map Prod.fst =
      some { status := upstreamHeader.DHT11_CRC_ERROR, temperature := -1, humidity := -1 } := by
  refine ⟨by decide, by decide, envWrap_payload, ?_⟩
  obtain ⟨h1, -, e, -⟩ := fresh_of_payload upstreamHeader envWrap initialDriver hw0 (by decide)
    [200, 0, 100, 0, 44] envWrap_payload
  rw [e, Option.map_some']
  exact congrArg some (by decide :
    (finishRead upstreamHeader
      { initialDriver with last_read_time := envWrap.clock (hw0.clockReads + 1) }
      [200, 0, 100, 0, 44]).1 =
      { status := upstreamHeader.DHT11_CRC_ERROR, temperature := -1, humidity := -1 })

/-- C3: when a call that is not throttled returns a reading with status
`DHT11_OK`, the attempt captured a payload of five bytes whose last byte is the
sum of the first four modulo 256, and the reading carries byte 0 as humidity
and byte 2 as temperature. -/
theorem success_payload_checksum (H : Header) (hT : H.DHT11_OK ≠ H.DHT11_TIMEOUT_ERROR)
    (hC : H.DHT11_OK ≠ H.DHT11_CRC_ERROR) (E : Env) (d : Driver) (h : Hw)
    (hfresh : ¬ E.clock h.clockReads - 2000000 < d.last_read_time)
    (r : dht11_reading) (e : (DHT11_read H E d h).map Prod.fst = some r)
    (hs : r.status = H.DHT11_OK) :
    ∃ data h1,
      acquire H E d.dht_gpio (esp_timer_get_time E (esp_timer_get_time E h).2).2 =
        some (Decoded.payload data, h1) ∧
      data.length = 5 ∧ (∀ j, data.getD j 0 < 256) ∧
      data.getD 4 0 = (data.getD 0 0 + data.getD 1 0 + data.getD 2 0 + data.getD 3 0) % 256 ∧
      r.humidity = (data.getD 0 0 : Nat) ∧ r.temperature = (data.getD 2 0 : Nat) := by
  rw [DHT11_read_fresh H E d h hfresh] at e
  obtain ⟨res, h1, e1, -, -, -, hout⟩ :=
    acquire_total H E d.dht_gpio (esp_timer_get_time E (esp_timer_get_time E h).2).2
  cases res with
  | timedOut =>
    rw [freshRead_timedOut H E { d with last_read_time := E.clock (h.clockReads + 1) } _ h1 e1] at e
    simp only [Option.map_some', Option.some.injEq] at e
    subst e
    exact absurd hs.symm hT
  | payload data =>
    rw [freshRead_payload H E { d with last_read_time := E.clock (h.clockReads + 1) } _ h1 data e1] at e
    simp only [Option.map_some', Option.some.injEq] at e
    obtain ⟨hlen, hlt⟩ := hout data rfl
    by_cases hsum : data.getD 4 0 = data.getD 0 0 + data.getD 1 0 + data.getD 2 0 + data.getD 3 0
    · have hc : _checkCRC H data ≠ H.DHT11_CRC_ERROR := by
        simp only [_checkCRC, hsum, if_true]; exact hC
      rw [finishRead_ok H _ data hc] at e
      subst e
      refine ⟨data, h1, e1, hlen, hlt, ?_, rfl, rfl⟩
      have := hlt 4
      omega
    · have hc : _checkCRC H data = H.DHT11_CRC_ERROR := by
        simp only [_checkCRC, hsum, if_false]
      rw [finishRead_crc H _ data hc] at e
      subst e
      exact absurd hs.symm hC

theorem success_payload_checksum_witness :
    upstreamHeader.DHT11_OK ≠ upstreamHeader.DHT11_TIMEOUT_ERROR ∧
    upstreamHeader.DHT11_OK ≠ upstreamHeader.DHT11_CRC_ERROR ∧
    ¬ envA.clock hw0.clockReads - 2000000 < initialDriver.last_read_time ∧
    (DHT11_read upstreamHeader envA initialDriver hw0).map Prod.fst =
      some { status := 0, temperature := 26, humidity := 55 } ∧
    ∃ data h1,
      acquire upstreamHeader envA initialDriver.dht_gpio
          (esp_timer_get_time envA (esp_timer_get_time envA hw0).2).2 =
        some (Decoded.payload data, h1) ∧
      data.length = 5 ∧ (∀ j, data.getD j 0 < 256) ∧
      data.getD 4 0 = (data.getD 0 0 + data.getD 1 0 + data.getD 2 0 + data.getD 3 0) % 256 ∧
      (55 : Int) = (data.getD 0 0 : Nat) ∧ (26 : Int) = (data.getD 2 0 : Nat) :=
  ⟨by decide, by decide, by decide, envA_reading,
    success_payload_checksum upstreamHeader (by decide) (by decide) envA initialDriver hw0
      (by decide) { status := 0, temperature := 26, humidity := 55 } envA_reading rfl⟩

/-- C4: on a call that is not throttled, when the line presents the
acknowledgement pulse and then, for each of the 40 bit indices in order, a low
phase the pulse timer measures within its bound followed by a high phase it
measures as more than 28 ticks for a one and at most 28 ticks for a zero, the
payload captured by `DHT11_read` has bit `7 - i % 8` of byte `i / 8` equal to
bit `i`, five bytes, and nothing set above bit 7; the reading returned is the
one `finishRead` derives from that payload. The bounds 81, 51 and 71 are the
largest counts the waits of 80, 50 and 70 return. -/
theorem decoder_msb_first (H : Header) (hT : H.DHT11_TIMEOUT_ERROR < 0)
    (hO : H.DHT11_OK ≠ H.DHT11_TIMEOUT_ERROR) (E : Env) (d : Driver) (h : Hw)
    (hfresh : ¬ E.clock h.clockReads - 2000000 < d.last_read_time)
    (a c : Nat) (hack : Pulse E h.polls a c) (ha : a ≤ 81) (hc : c ≤ 81)
    (b : Nat → Bool) (lo hi : Nat → Nat)
    (hline : ∀ i, i < 40 → Pulse E (bitStart (h.polls + a + c + 2) lo hi i) (lo i) (hi i) ∧
      lo i ≤ 51 ∧ hi i ≤ 71 ∧ (b i = true ↔ 28 < hi i)) :
    ∃ data h1,
      acquire H E d.dht_gpio (esp_timer_get_time E (esp_timer_get_time E h).2).2 =
        some (Decoded.payload data, h1) ∧
      DHT11_read H E d h =
        some ((finishRead H { d with last_read_time := E.clock (h.clockReads + 1) } data).1,
              (finishRead H { d with last_read_time := E.clock (h.clockReads + 1) } data).2, h1) ∧
      data.length = 5 ∧
      (∀ i, i < 40 → (data.getD (i / 8) 0).testBit (7 - i % 8) = b i) ∧
      ∀ j, data.getD j 0 < 256 := by
  obtain ⟨data, h1, e1, hlen, hbits, hlt⟩ := acquire_pulses H hT hO E d.dht_gpio
    (esp_timer_get_time E (esp_timer_get_time E h).2).2 a c hack ha hc b lo hi hline
  exact ⟨data, h1, e1,
    by rw [DHT11_read_fresh H E d h hfresh,
        freshRead_payload H E { d with last_read_time := E.clock (h.clockReads + 1) } _ h1 data e1],
    hlen, hbits, hlt⟩

theorem decoder_msb_first_witness :
    upstreamHeader.DHT11_TIMEOUT_ERROR < 0 ∧
    upstreamHeader.DHT11_OK ≠ upstreamHeader.DHT11_TIMEOUT_ERROR ∧
    ¬ envA.clock hw0.clockReads - 2000000 < initialDriver.last_read_time ∧
    Pulse envA hw0.polls 2 2 ∧
    (∀ i, i < 40 →
      Pulse envA (bitStart (hw0.polls + 2 + 2 + 2) (fun _ => 1)
          (fun i => widthOf (bitAt [55, 0, 26, 0, 81] i)) i) 1
        (widthOf (bitAt [55, 0, 26, 0, 81] i)) ∧
      1 ≤ 51 ∧ widthOf (bitAt [55, 0, 26, 0, 81] i) ≤ 71 ∧
      (bitAt [55, 0, 26, 0, 81] i = true ↔ 28 < widthOf (bitAt [55, 0, 26, 0, 81] i))) ∧
    (DHT11_read upstreamHeader envA initialDriver hw0).map Prod.fst =
      some { status := upstreamHeader.DHT11_OK, temperature := 26, humidity := 55 } ∧
    ∃ data h1,
      acquire upstreamHeader envA initialDriver.dht_gpio
          (esp_timer_get_time envA (esp_timer_get_time envA hw0).2).2 =
        some (Decoded.payload data, h1) ∧
      DHT11_read upstreamHeader envA initialDriver hw0 =
        some ((finishRead upstreamHeader
                { initialDriver with last_read_time := envA.clock (hw0.clockReads + 1) } data).1,
              (finishRead upstreamHeader
                { initialDriver with last_read_time := envA.clock (hw0.clockReads + 1) } data).2,
              h1) ∧
      data.length = 5 ∧
      (∀ i, i < 40 → (data.getD (i / 8) 0).testBit (7 - i % 8) = bitAt [55, 0, 26, 0, 81] i) ∧
      ∀ j, data.getD j 0 < 256 :=
  ⟨by decide, by decide, by decide, envA_ack, envA_pulses, envA_reading,
    decoder_msb_first upstreamHeader (by decide) (by decide) envA initialDriver hw0 (by decide)
      2 2 envA_ack (by decide) (by decide) (bitAt [55, 0, 26, 0, 81]) (fun _ => 1)
      (fun i => widthOf (bitAt [55, 0, 26, 0, 81] i)) envA_pulses⟩

/-- C5 (failing input): after the acknowledgement pulse the line stays high, so
the high wait of bit 0 (and of every later bit) times out with
`DHT11_TIMEOUT_ERROR`; the call nevertheless returns the Success reading with
temperature 0 and humidity 0 instead of the Timeout reading. -/
theorem high_phase_timeout_returns_success :
    Pulse envStuckHigh 0 2 2 ∧ (∀ k, envStuckHigh.line (6 + k) = true) ∧
    (_waitOrTimeout upstreamHeader envStuckHigh 0 50 0
        { polls := 6, clockReads := 2, trace := [] }).map Prod.fst = some 0 ∧
    (_waitOrTimeout upstreamHeader envStuckHigh 0 70 1
        { polls := 7, clockReads := 2, trace := [] }).map Prod.fst =
      some upstreamHeader.DHT11_TIMEOUT_ERROR ∧
    (DHT11_read upstreamHeader envStuckHigh initialDriver hw0).map Prod.fst =
      some { status := upstreamHeader.DHT11_OK, temperature := 0, humidity := 0 } :=
  ⟨by decide, fun k => by simp [envStuckHigh], by decide, by decide,
    stuck_high_success upstreamHeader (by decide) (by decide) (by decide) envStuckHigh
      initialDriver hw0 (by decide) 2 2 (by decide) (by decide) (by decide) envStuckHigh_high⟩

/-- C6 (failing input): the handshake succeeds, the first 10 bits of scenario A
decode normally, then the line is low at 51 polls in a row, which is more than
the bound 50 of the low wait, before the rest of scenario A follows. The low
wait of bit 10 returns the count 51 instead of `DHT11_TIMEOUT_ERROR`, the loop
goes on, and the call returns the Success reading 26, 55 instead of the Timeout
reading. -/
theorem dropout_of_51_polls_returns_success :
    Pulse envLate hw0.polls 2 2 ∧
    (∀ i, i < 10 →
      Pulse envLate (bitStart (hw0.polls + 2 + 2 + 2) (fun _ => 1)
          (fun i => widthOf (bitAt [55, 0, 26, 0, 81] i)) i) 1
        (widthOf (bitAt [55, 0, 26, 0, 81] i))) ∧
    (∀ j, j < 51 →
      envLate.line (bitStart (hw0.polls + 2 + 2 + 2) (fun _ => 1)
        (fun i => widthOf (bitAt [55, 0, 26, 0, 81] i)) 10 + j) = false) ∧
    (_waitOrTimeout upstreamHeader envLate 0 50 0
        { polls := bitStart (hw0.polls + 2 + 2 + 2) (fun _ => 1)
            (fun i => widthOf (bitAt [55, 0, 26, 0, 81] i)) 10,
          clockReads := 2, trace := [] }).map Prod.fst = some 51 ∧
    (51 : Int) ≠ upstreamHeader.DHT11_TIMEOUT_ERROR ∧
    (DHT11_read upstreamHeader envLate initialDriver hw0).map Prod.fst =
      some { status := upstreamHeader.DHT11_OK, temperature := 26, humidity := 55 } :=
  ⟨by decide, envLate_pulses, envLate_low, envLate_wait, by decide, envLate_reading⟩

/-- The dropout that the code does catch: on a call that is not throttled, when
the acknowledgement pulse and the pulses of the first `k` bits (`k < 40`, any
widths the waits measure) are followed by a low phase of 52 polls or more,
`DHT11_read` returns the reading `DHT11_TIMEOUT_ERROR, -1, -1` and that
reading is the cache afterwards, whatever the cache held before. -/
theorem dropout_returns_timeout (H : Header) (hT : H.DHT11_TIMEOUT_ERROR < 0)
    (hO : H.DHT11_OK ≠ H.DHT11_TIMEOUT_ERROR) (E : Env) (d : Driver) (h : Hw)
    (hfresh : ¬ E.clock h.clockReads - 2000000 < d.last_read_time)
    (a c : Nat) (hack : Pulse E h.polls a c) (ha : a ≤ 81) (hc : c ≤ 81)
    (k : Nat) (hk : k < 40) (lo hi : Nat → Nat)
    (hbits : ∀ i, i < k →
      Pulse E (bitStart (h.polls + a + c + 2) lo hi i) (lo i) (hi i) ∧ lo i ≤ 51 ∧ hi i ≤ 71)
    (hlow : ∀ j, j ≤ 51 → E.line (bitStart (h.polls + a + c + 2) lo hi k + j) = false) :
    ∃ h1, DHT11_read H E d h =
      some ({ status := H.DHT11_TIMEOUT_ERROR, temperature := -1, humidity := -1 },
            { dht_gpio := d.dht_gpio, last_read_time := E.clock (h.clockReads + 1),
              last_read := { status := H.DHT11_TIMEOUT_ERROR, temperature := -1, humidity := -1 } },
            h1) := by
  obtain ⟨h1, e, -, -⟩ := dropout_read H hT hO E d h hfresh a c hack ha hc k hk lo hi hbits hlow
  exact ⟨h1, e⟩

theorem dropout_returns_timeout_witness :
    upstreamHeader.DHT11_TIMEOUT_ERROR < 0 ∧
    upstreamHeader.DHT11_OK ≠ upstreamHeader.DHT11_TIMEOUT_ERROR ∧
    ¬ envD.clock hw0.clockReads - 2000000 < initialDriver.last_read_time ∧
    Pulse envD hw0.polls 2 2 ∧
    (∀ i, i < 10 →
      Pulse envD (bitStart (hw0.polls + 2 + 2 + 2) (fun _ => 1)
          (fun i => widthOf (bitAt [55, 0, 26, 0, 81] i)) i) 1
        (widthOf (bitAt [55, 0, 26, 0, 81] i)) ∧
      1 ≤ 51 ∧ widthOf (bitAt [55, 0, 26, 0, 81] i) ≤ 71) ∧
    (∀ j, j ≤ 51 →
      envD.line (bitStart (hw0.polls + 2 + 2 + 2) (fun _ => 1)
        (fun i => widthOf (bitAt [55, 0, 26, 0, 81] i)) 10 + j) = false) ∧
    ∃ h1, DHT11_read upstreamHeader envD initialDriver hw0 =
      some ({ status := upstreamHeader.DHT11_TIMEOUT_ERROR, temperature := -1, humidity := -1 },
            { dht_gpio := initialDriver.dht_gpio, last_read_time := envD.clock (hw0.clockReads + 1),
              last_read :=
                { status := upstreamHeader.DHT11_TIMEOUT_ERROR, temperature := -1, humidity := -1 } },
            h1) :=
  ⟨by decide, by decide, by decide, envD_ack, envD_pulses, envD_low,
    dropout_returns_timeout upstreamHeader (by decide) (by decide) envD initialDriver hw0
      (by decide) 2 2 envD_ack (by decide) (by decide) 10 (by decide) (fun _ => 1)
      (fun i => widthOf (bitAt [55, 0, 26, 0, 81] i)) envD_pulses envD_low⟩

/-- C7: on a call that is not throttled, when the line shows one and the same
level (low throughout, or high throughout) at the polls of the
acknowledgement wait, `_checkResponse` answers `DHT11_TIMEOUT_ERROR` after at
most `2 * 82` polls, and `DHT11_read` returns and caches the reading
`DHT11_TIMEOUT_ERROR, -1, -1` in the hardware state `_checkResponse` left, that
is without a poll by the decode loop. -/
theorem silent_sensor_times_out (H : Header) (E : Env) (d : Driver) (h : Hw)
    (hfresh : ¬ E.clock h.clockReads - 2000000 < d.last_read_time)
    (hsilent : (∀ k, k < 2 * 82 → E.line (h.polls + k) = false) ∨
      (∀ k, k < 2 * 82 → E.line (h.polls + k) = true)) :
    ∃ h1,
      _checkResponse H E d.dht_gpio
          (_sendStartSignal d.dht_gpio (esp_timer_get_time E (esp_timer_get_time E h).2).2) =
        some (H.DHT11_TIMEOUT_ERROR, h1) ∧
      DHT11_read H E d h =
        some ({ status := H.DHT11_TIMEOUT_ERROR, temperature := -1, humidity := -1 },
              { dht_gpio := d.dht_gpio, last_read_time := E.clock (h.clockReads + 1),
                last_read :=
                  { status := H.DHT11_TIMEOUT_ERROR, temperature := -1, humidity := -1 } },
              h1) ∧
      h.polls < h1.polls ∧ h1.polls ≤ h.polls + 2 * 82 := by
  obtain ⟨h1, e1, p1, q1⟩ := checkResponse_silent H E d.dht_gpio
    (_sendStartSignal d.dht_gpio (esp_timer_get_time E (esp_timer_get_time E h).2).2)
    (by simpa using hsilent)
  simp only [sendStartSignal_twoClocks_polls] at p1 q1
  refine ⟨h1, e1, ?_, p1, q1⟩
  rw [DHT11_read_fresh H E d h hfresh,
    freshRead_timedOut H E { d with last_read_time := E.clock (h.clockReads + 1) } _ h1
      (acquire_timeout H E _ _ h1 e1)]
  rfl

theorem silent_sensor_times_out_witness :
    ¬ envLow.clock hw0.clockReads - 2000000 < initialDriver.last_read_time ∧
    ((∀ k, k < 2 * 82 → envLow.line (hw0.polls + k) = false) ∨
      (∀ k, k < 2 * 82 → envLow.line (hw0.polls + k) = true)) ∧
    ∃ h1,
      _checkResponse upstreamHeader envLow initialDriver.dht_gpio
          (_sendStartSignal initialDriver.dht_gpio
            (esp_timer_get_time envLow (esp_timer_get_time envLow hw0).2).2) =
        some (upstreamHeader.DHT11_TIMEOUT_ERROR, h1) ∧
      DHT11_read upstreamHeader envLow initialDriver hw0 =
        some ({ status := upstreamHeader.DHT11_TIMEOUT_ERROR, temperature := -1, humidity := -1 },
              { dht_gpio := initialDriver.dht_gpio,
                last_read_time := envLow.clock (hw0.clockReads + 1),
                last_read :=
                  { status := upstreamHeader.DHT11_TIMEOUT_ERROR, temperature := -1,
                    humidity := -1 } },
              h1) ∧
      hw0.polls < h1.polls ∧ h1.polls ≤ hw0.polls + 2 * 82 :=
  ⟨by decide, Or.inl (fun _ _ => rfl),
    silent_sensor_times_out upstreamHeader envLow initialDriver hw0 (by decide)
      (Or.inl (fun _ _ => rfl))⟩

/-- C8: on a call that is not throttled, when the attempt captures a payload
whose last byte differs from the sum of the first four modulo 256,
`DHT11_read` returns the reading `DHT11_CRC_ERROR, -1, -1` and that reading is
the cache afterwards, whatever bytes 0 and 2 are and whatever the cache held. -/
theorem crc_mismatch_returns_crc (H : Header) (E : Env) (d : Driver) (h : Hw)
    (hfresh : ¬ E.clock h.clockReads - 2000000 < d.last_read_time) (data : List Nat)
    (hacq : (acquire H E d.dht_gpio (esp_timer_get_time E (esp_timer_get_time E h).2).2).map
      Prod.fst = some (Decoded.payload data))
    (hne : data.getD 4 0 ≠
      (data.getD 0 0 + data.getD 1 0 + data.getD 2 0 + data.getD 3 0) % 256) :
    ∃ h1, DHT11_read H E d h =
      some ({ status := H.DHT11_CRC_ERROR, temperature := -1, humidity := -1 },
            { dht_gpio := d.dht_gpio, last_read_time := E.clock (h.clockReads + 1),
              last_read := { status := H.DHT11_CRC_ERROR, temperature := -1, humidity := -1 } },
            h1) := by
  obtain ⟨h1, -, e, -, hlt⟩ := fresh_of_payload H E d h hfresh data hacq
  have hsum : ¬ data.getD 4 0 =
      data.getD 0 0 + data.getD 1 0 + data.getD 2 0 + data.getD 3 0 := by
    intro heq
    have := hlt 4
    apply hne
    omega
  have hc : _checkCRC H data = H.DHT11_CRC_ERROR := by
    simp only [_checkCRC, hsum, if_false]
  refine ⟨h1, ?_⟩
  rw [e, finishRead_crc H _ data hc]
  rfl

theorem crc_mismatch_returns_crc_witness :
    ¬ envB.clock hw0.clockReads - 2000000 < initialDriver.last_read_time ∧
    (acquire upstreamHeader envB initialDriver.dht_gpio
        (esp_timer_get_time envB (esp_timer_get_time envB hw0).2).2).map Prod.fst =
      some (Decoded.payload [55, 0, 26, 0, 80]) ∧
    ([55, 0, 26, 0, 80] : List Nat).getD 4 0 ≠
      (([55, 0, 26, 0, 80] : List Nat).getD 0 0 + ([55, 0, 26, 0, 80] : List Nat).getD 1 0 +
        ([55, 0, 26, 0, 80] : List Nat).getD 2 0 + ([55, 0, 26, 0, 80] : List Nat).getD 3 0) % 256 ∧
    ∃ h1, DHT11_read upstreamHeader envB initialDriver hw0 =
      some ({ status := upstreamHeader.DHT11_CRC_ERROR, temperature := -1, humidity := -1 },
            { dht_gpio := initialDriver.dht_gpio,
              last_read_time := envB.clock (hw0.clockReads + 1),
              last_read :=
                { status := upstreamHeader.DHT11_CRC_ERROR, temperature := -1, humidity := -1 } },
            h1) :=
  ⟨by decide, envB_payload, by decide,
    crc_mismatch_returns_crc upstreamHeader envB initialDriver hw0 (by decide)
      [55, 0, 26, 0, 80] envB_payload (by decide)⟩

/-- C9 (counterexample): with a monotonic clock, a reachable driver answers a
call at clock 1999999 from the cache (the Timeout reading) and the next call,
one microsecond later at clock 2000000, with a fresh attempt that polls the
line and returns the Success reading 0, 0: the last attempt dates from clock 0,
so the second call is outside the window although the two calls are less than
2000000 apart. -/
theorem repoll_after_throttled_call_differs :
    (∀ k, envRepoll.clock k ≤ envRepoll.clock (k + 1)) ∧
    ∃ d h h1 d2 h2,
      Reachable upstreamHeader envRepoll d h ∧
      DHT11_read upstreamHeader envRepoll d h =
        some ({ status := -1, temperature := -1, humidity := -1 }, d, h1) ∧
      envRepoll.clock h.clockReads = 1999999 ∧ envRepoll.clock h1.clockReads = 2000000 ∧
      envRepoll.clock h1.clockReads - envRepoll.clock h.clockReads < 2000000 ∧
      DHT11_read upstreamHeader envRepoll d h1 =
        some ({ status := 0, temperature := 0, humidity := 0 }, d2, h2) ∧
      h1.polls < h2.polls := by
  refine ⟨by intro k; simp only [envRepoll]; split_ifs <;> omega, ?_⟩
  -- the first attempt, at clock 0, stalls in the low phase of bit 0
  obtain ⟨hA, eA, pA, cA⟩ := dropout_read upstreamHeader (by decide) (by decide) envRepoll
    initialDriver hw0 (by decide) 0 0 (by decide) (by decide) (by decide) 0 (by decide)
    (fun _ => 0) (fun _ => 0) (by intro i hi; omega) (by decide)
  have pA2 : hA.polls = 54 := pA
  have cA2 : hA.clockReads = 2 := cA
  have hreach := Reachable.read _ _ _ _ _ (Reachable.start hw0) eA
  -- the call at clock 1999999 is throttled
  have eB := DHT11_read_throttled upstreamHeader envRepoll
    { dht_gpio := 0, last_read_time := 0,
      last_read := { status := -1, temperature := -1, humidity := -1 } } hA
    (show envRepoll.clock hA.clockReads - 2000000 < 0 by rw [cA2]; decide)
  -- the call at clock 2000000 is not
  have hfreshC : ¬ envRepoll.clock (esp_timer_get_time envRepoll hA).2.clockReads - 2000000 <
      (0 : Int) := by
    rw [esp_timer_get_time_clockReads, cA2]; decide
  obtain ⟨r2, h2, l, eC, pC, -, -, -⟩ := fresh_effect upstreamHeader envRepoll
    { dht_gpio := 0, last_read_time := 0,
      last_read := { status := -1, temperature := -1, humidity := -1 } }
    (esp_timer_get_time envRepoll hA).2 hfreshC
  have hr2 := stuck_high_success upstreamHeader (by decide) (by decide) (by decide) envRepoll
    { dht_gpio := 0, last_read_time := 0,
      last_read := { status := -1, temperature := -1, humidity := -1 } }
    (esp_timer_get_time envRepoll hA).2 hfreshC 0 0
    (by rw [esp_timer_get_time_polls, pA2]; decide) (by decide) (by decide)
    (by intro k; rw [esp_timer_get_time_polls, pA2]; simp [envRepoll])
  rw [eC, Option.map_some'] at hr2
  have hr2 : r2 = { status := 0, temperature := 0, humidity := 0 } := Option.some.inj hr2
  subst hr2
  exact ⟨_, hA, (esp_timer_get_time envRepoll hA).2, _, h2, hreach, eB,
    by rw [cA2]; rfl, by rw [esp_timer_get_time_clockReads, cA2]; rfl,
    by rw [esp_timer_get_time_clockReads, cA2]; decide, eC, pC⟩


/-- C9 (amended): with a monotonic clock, every call returns, and when the next
call is entered less than 2000000 after the entry of this one, it returns the
same reading, leaves the driver as it is and adds nothing but its one clock
read to the log (no poll, no write, no delay), provided this call was a fresh
attempt; when
this call was itself answered from the cache, the same holds if the next call
is entered less than 2000000 after the last attempt. -/
theorem repoll_within_window (H : Header) (E : Env)
    (hmono : ∀ k, E.clock k ≤ E.clock (k + 1)) (d : Driver) (h : Hw) :
    ∃ r1 d1 h1, DHT11_read H E d h = some (r1, d1, h1) ∧
      (E.clock h1.clockReads - E.clock h.clockReads < 2000000 →
        (¬ E.clock h.clockReads - 2000000 < d.last_read_time ∨
          E.clock h1.clockReads - d.last_read_time < 2000000) →
        DHT11_read H E d1 h1 =
          some (r1, d1, { polls := h1.polls, clockReads := h1.clockReads + 1,
                          trace := h1.trace ++ [Event.get_time (E.clock h1.clockReads)] })) := by
  by_cases ht : E.clock h.clockReads - 2000000 < d.last_read_time
  · refine ⟨d.last_read, d, (esp_timer_get_time E h).2, DHT11_read_throttled H E d h ht, ?_⟩
    intro _ hwin
    rcases hwin with hf | hw
    · exact absurd ht hf
    · exact DHT11_read_throttled H E d _ (by omega)
  · obtain ⟨r, h1, l, e, -, -, c1, -⟩ := fresh_effect H E d h ht
    refine ⟨r, _, h1, e, ?_⟩
    intro hnear _
    have := hmono h.clockReads
    exact DHT11_read_throttled H E
      { dht_gpio := d.dht_gpio, last_read_time := E.clock (h.clockReads + 1), last_read := r } h1
      (show E.clock h1.clockReads - 2000000 < E.clock (h.clockReads + 1) by omega)

theorem repoll_within_window_witness :
    (∀ k, envLow.clock k ≤ envLow.clock (k + 1)) ∧
    ¬ envLow.clock hw0.clockReads - 2000000 < initialDriver.last_read_time ∧
    ∃ r1 d1 h1, DHT11_read upstreamHeader envLow initialDriver hw0 = some (r1, d1, h1) ∧
      envLow.clock h1.clockReads - envLow.clock hw0.clockReads < 2000000 ∧
      DHT11_read upstreamHeader envLow d1 h1 =
        some (r1, d1, { polls := h1.polls, clockReads := h1.clockReads + 1,
                        trace := h1.trace ++ [Event.get_time (envLow.clock h1.clockReads)] }) := by
  refine ⟨fun _ => le_refl _, by decide, ?_⟩
  obtain ⟨r1, d1, h1, e, himp⟩ :=
    repoll_within_window upstreamHeader envLow (fun _ => le_refl _) initialDriver hw0
  have hnear : envLow.clock h1.clockReads - envLow.clock hw0.clockReads < 2000000 :=
    show (0 : Int) - 0 < 2000000 by decide
  exact ⟨r1, d1, h1, e, hnear, himp hnear (Or.inl (by decide))⟩

/-- C10: a call entered less than 2000000 after the last attempt returns the
cached reading and does nothing but read the clock once: the driver and the
poll count are as before and the log has grown by that clock read alone, with
no direction change, level write, level read or delay. A call entered exactly
2000000 after the last attempt is not throttled: it stores the new time stamp,
sends the start signal and polls the line. -/
theorem throttled_call_is_pure (H : Header) (E : Env) (d : Driver) (h : Hw) :
    (E.clock h.clockReads - d.last_read_time < 2000000 →
      DHT11_read H E d h =
        some (d.last_read, d,
              { polls := h.polls, clockReads := h.clockReads + 1,
                trace := h.trace ++ [Event.get_time (E.clock h.clockReads)] })) ∧
    (E.clock h.clockReads - d.last_read_time = 2000000 →
      ∃ r h1 l, DHT11_read H E d h =
          some (r, { dht_gpio := d.dht_gpio, last_read_time := E.clock (h.clockReads + 1),
                     last_read := r }, h1) ∧
        h.polls < h1.polls ∧
        h1.trace = h.trace ++
          (Event.get_time (E.clock h.clockReads) ::
            Event.get_time (E.clock (h.clockReads + 1)) ::
            Event.set_direction d.dht_gpio gpio_mode_t.GPIO_MODE_OUTPUT ::
            Event.set_level d.dht_gpio 0 :: Event.delay_us 20000 ::
            Event.set_level d.dht_gpio 1 :: Event.delay_us 40 ::
            Event.set_direction d.dht_gpio gpio_mode_t.GPIO_MODE_INPUT ::
            Event.get_level d.dht_gpio (levelOf (E.line h.polls)) :: l)) := by
  constructor
  · intro ht
    exact DHT11_read_throttled H E d h (by omega)
  · intro heq
    obtain ⟨r, h1, l, e, p, -, -, t⟩ := fresh_effect H E d h (by omega)
    exact ⟨r, h1, l, e, p, t⟩

theorem throttled_call_is_pure_witness :
    (envRepoll.clock 2 - (0 : Int) < 2000000 ∧
      DHT11_read upstreamHeader envRepoll
          { dht_gpio := 0, last_read_time := 0,
            last_read := { status := -1, temperature := -1, humidity := -1 } }
          { polls := 54, clockReads := 2, trace := [] } =
        some ({ status := -1, temperature := -1, humidity := -1 },
              { dht_gpio := 0, last_read_time := 0,
                last_read := { status := -1, temperature := -1, humidity := -1 } },
              { polls := 54, clockReads := 3, trace := [Event.get_time 1999999] })) ∧
    (envRepoll.clock 3 - (0 : Int) = 2000000 ∧
      ∃ r h1 l, DHT11_read upstreamHeader envRepoll
          { dht_gpio := 0, last_read_time := 0,
            last_read := { status := -1, temperature := -1, humidity := -1 } }
          { polls := 54, clockReads := 3, trace := [] } =
          some (r, { dht_gpio := 0, last_read_time := envRepoll.clock 4, last_read := r }, h1) ∧
        54 < h1.polls ∧
        h1.trace = [] ++
          (Event.get_time (envRepoll.clock 3) :: Event.get_time (envRepoll.clock 4) ::
            Event.set_direction 0 gpio_mode_t.GPIO_MODE_OUTPUT ::
            Event.set_level 0 0 :: Event.delay_us 20000 ::
            Event.set_level 0 1 :: Event.delay_us 40 ::
            Event.set_direction 0 gpio_mode_t.GPIO_MODE_INPUT ::
            Event.get_level 0 (levelOf (envRepoll.line 54)) :: l)) :=
  ⟨⟨by decide,
      (throttled_call_is_pure upstreamHeader envRepoll
        { dht_gpio := 0, last_read_time := 0,
          last_read := { status := -1, temperature := -1, humidity := -1 } }
        { polls := 54, clockReads := 2, trace := [] }).1 (by decide)⟩,
    ⟨by decide,
      (throttled_call_is_pure upstreamHeader envRepoll
        { dht_gpio := 0, last_read_time := 0,
          last_read := { status := -1, temperature := -1, humidity := -1 } }
        { polls := 54, clockReads := 3, trace := [] }).2 (by decide)⟩⟩

/-- C11: a call that is not throttled, whatever its outcome, reads the clock a
second time and leaves that value as last attempt time and the reading it
returns as cache. In the log of the call this clock read is the second entry:
the six operations of the start signal and the first read of the line follow
it, and no clock read comes later, so the value was taken before any GPIO
operation of the attempt. Any call made afterwards in that driver state at a
clock value less than 2000000 above that time returns the same reading, reads
nothing but the clock and leaves the driver state as it is. -/
theorem failed_attempt_enforces_throttle (H : Header) (E : Env) (d : Driver) (h : Hw)
    (hfresh : ¬ E.clock h.clockReads - 2000000 < d.last_read_time) :
    ∃ r h1 l,
      DHT11_read H E d h =
        some (r, { dht_gpio := d.dht_gpio, last_read_time := E.clock (h.clockReads + 1),
                   last_read := r }, h1) ∧
      (r = _timeoutError H ∨ r = _crcError H ∨ r.status = H.DHT11_OK) ∧
      h1.clockReads = h.clockReads + 2 ∧
      h1.trace = h.trace ++
        (Event.get_time (E.clock h.clockReads) ::
          Event.get_time (E.clock (h.clockReads + 1)) ::
          Event.set_direction d.dht_gpio gpio_mode_t.GPIO_MODE_OUTPUT ::
          Event.set_level d.dht_gpio 0 :: Event.delay_us 20000 ::
          Event.set_level d.dht_gpio 1 :: Event.delay_us 40 ::
          Event.set_direction d.dht_gpio gpio_mode_t.GPIO_MODE_INPUT ::
          Event.get_level d.dht_gpio (levelOf (E.line h.polls)) :: l) ∧
      (∀ e, e ∈ l → ∀ v, e ≠ Event.get_time v) ∧
      ∀ h2 : Hw, E.clock h2.clockReads - E.clock (h.clockReads + 1) < 2000000 →
        DHT11_read H E
            { dht_gpio := d.dht_gpio, last_read_time := E.clock (h.clockReads + 1),
              last_read := r } h2 =
          some (r, { dht_gpio := d.dht_gpio, last_read_time := E.clock (h.clockReads + 1),
                     last_read := r },
                { polls := h2.polls, clockReads := h2.clockReads + 1,
                  trace := h2.trace ++ [Event.get_time (E.clock h2.clockReads)] }) := by
  obtain ⟨r, h1, l, e, c, t, q, hr⟩ := fresh_log H E d h hfresh
  refine ⟨r, h1, l, e, hr, c, t, q, ?_⟩
  intro h2 hnear
  exact DHT11_read_throttled H E
    { dht_gpio := d.dht_gpio, last_read_time := E.clock (h.clockReads + 1), last_read := r } h2
    (show E.clock h2.clockReads - 2000000 < E.clock (h.clockReads + 1) by omega)

theorem failed_attempt_enforces_throttle_witness :
    ¬ envLow.clock hw0.clockReads - 2000000 < initialDriver.last_read_time ∧
    ∃ r h1 l,
      DHT11_read upstreamHeader envLow initialDriver hw0 =
        some (r, { dht_gpio := initialDriver.dht_gpio,
                   last_read_time := envLow.clock (hw0.clockReads + 1), last_read := r }, h1) ∧
      (r = _timeoutError upstreamHeader ∨ r = _crcError upstreamHeader ∨
        r.status = upstreamHeader.DHT11_OK) ∧
      h1.clockReads = hw0.clockReads + 2 ∧
      h1.trace = hw0.trace ++
        (Event.get_time (envLow.clock hw0.clockReads) ::
          Event.get_time (envLow.clock (hw0.clockReads + 1)) ::
          Event.set_direction initialDriver.dht_gpio gpio_mode_t.GPIO_MODE_OUTPUT ::
          Event.set_level initialDriver.dht_gpio 0 :: Event.delay_us 20000 ::
          Event.set_level initialDriver.dht_gpio 1 :: Event.delay_us 40 ::
          Event.set_direction initialDriver.dht_gpio gpio_mode_t.GPIO_MODE_INPUT ::
          Event.get_level initialDriver.dht_gpio (levelOf (envLow.line hw0.polls)) :: l) ∧
      (∀ e, e ∈ l → ∀ v, e ≠ Event.get_time v) ∧
      ∀ h2 : Hw, envLow.clock h2.clockReads - envLow.clock (hw0.clockReads + 1) < 2000000 →
        DHT11_read upstreamHeader envLow
            { dht_gpio := initialDriver.dht_gpio,
              last_read_time := envLow.clock (hw0.clockReads + 1), last_read := r } h2 =
          some (r, { dht_gpio := initialDriver.dht_gpio,
                     last_read_time := envLow.clock (hw0.clockReads + 1), last_read := r },
                { polls := h2.polls, clockReads := h2.clockReads + 1,
                  trace := h2.trace ++ [Event.get_time (envLow.clock h2.clockReads)] }) :=
  ⟨by decide, failed_attempt_enforces_throttle upstreamHeader envLow initialDriver hw0 (by decide)⟩

/-- C12: a call entered 2000000 or more after the last attempt does not answer
from the cache: it returns, and the log it leaves is the log at entry followed
by its two clock reads, then direction output, level 0, delay 20000, level 1,
delay 40, direction input, then a read of the line level, then the rest. No
level read stands before the six operations of the start signal, and the poll
count has grown. -/
theorem fresh_call_sends_start_signal (H : Header) (E : Env) (d : Driver) (h : Hw)
    (hout : 2000000 ≤ E.clock h.clockReads - d.last_read_time) :
    ∃ r d1 h1 l, DHT11_read H E d h = some (r, d1, h1) ∧
      h1.trace = h.trace ++
        (Event.get_time (E.clock h.clockReads) ::
          Event.get_time (E.clock (h.clockReads + 1)) ::
          Event.set_direction d.dht_gpio gpio_mode_t.GPIO_MODE_OUTPUT ::
          Event.set_level d.dht_gpio 0 :: Event.delay_us 20000 ::
          Event.set_level d.dht_gpio 1 :: Event.delay_us 40 ::
          Event.set_direction d.dht_gpio gpio_mode_t.GPIO_MODE_INPUT ::
          Event.get_level d.dht_gpio (levelOf (E.line h.polls)) :: l) ∧
      h.polls < h1.polls ∧ d1.last_read_time = E.clock (h.clockReads + 1) := by
  obtain ⟨r, h1, l, e, p, -, -, t⟩ := fresh_effect H E d h (by omega)
  exact ⟨r, _, h1, l, e, t, p, rfl⟩

theorem fresh_call_sends_start_signal_witness :
    2000000 ≤ envLow.clock hw0.clockReads - initialDriver.last_read_time ∧
    ∃ r d1 h1 l, DHT11_read upstreamHeader envLow initialDriver hw0 = some (r, d1, h1) ∧
      h1.trace = hw0.trace ++
        (Event.get_time (envLow.clock hw0.clockReads) ::
          Event.get_time (envLow.clock (hw0.clockReads + 1)) ::
          Event.set_direction initialDriver.dht_gpio gpio_mode_t.GPIO_MODE_OUTPUT ::
          Event.set_level initialDriver.dht_gpio 0 :: Event.delay_us 20000 ::
          Event.set_level initialDriver.dht_gpio 1 :: Event.delay_us 40 ::
          Event.set_direction initialDriver.dht_gpio gpio_mode_t.GPIO_MODE_INPUT ::
          Event.get_level initialDriver.dht_gpio (levelOf (envLow.line hw0.polls)) :: l) ∧
      hw0.polls < h1.polls ∧ d1.last_read_time = envLow.clock (hw0.clockReads + 1) :=
  ⟨by decide, fresh_call_sends_start_signal upstreamHeader envLow initialDriver hw0 (by decide)⟩

/-- C13 (failing input): with the timeout 50 and the target level low, the line
is low at exactly 51 polls in a row and high at the next one, so the count of
polls at the target level exceeds the timeout; `_waitOrTimeout` returns the
count 51, not `DHT11_TIMEOUT_ERROR`. The same with the timeout 0 and one poll
at the target level: the result is the count 1. -/
theorem pulse_timer_boundary_returns_count :
    (∀ k, k < 51 → levelOf (envBoundary.line (hw0.polls + k)) = 0) ∧
    levelOf (envBoundary.line (hw0.polls + 51)) ≠ 0 ∧
    (_waitOrTimeout upstreamHeader envBoundary 0 50 0 hw0).map Prod.fst = some 51 ∧
    (51 : Int) ≠ upstreamHeader.DHT11_TIMEOUT_ERROR ∧
    (_waitOrTimeout upstreamHeader envAlt 0 0 1 hw0).map Prod.fst = some 1 := by
  decide

/-- C15: `_waitOrTimeout(T, level)` returns on every line after at most `T + 2`
polls, and with any larger fuel the loop returns the same, so the result does
not depend on the fuel; every call of `DHT11_read` returns after at most
`2 * 82 + 40 * (52 + 72) = 5124` polls. -/
theorem bounded_polling (H : Header) (E : Env) :
    (∀ (pin : Int) (T : Nat) (level : Int) (h : Hw), ∃ r h1,
      _waitOrTimeout H E pin T level h = some (r, h1) ∧ h1.polls ≤ h.polls + (T + 2) ∧
      ∀ fuel, T + 2 ≤ fuel → waitLoop H E pin T level fuel 0 h = some (r, h1)) ∧
    (∀ (d : Driver) (h : Hw), ∃ r d1 h1,
      DHT11_read H E d h = some (r, d1, h1) ∧ h1.polls ≤ h.polls + 5124) := by
  constructor
  · intro pin T level h
    obtain ⟨r, h1, e, -, -, q, -⟩ := waitOrTimeout_total H E pin T level h
    refine ⟨r, h1, e, by omega, ?_⟩
    intro fuel hf
    have := waitLoop_fuel_mono H E pin T level (T + 2) 0 h (r, h1) e (fuel - (T + 2))
    rw [show T + 2 + (fuel - (T + 2)) = fuel by omega] at this
    exact this
  · intro d h
    by_cases ht : E.clock h.clockReads - 2000000 < d.last_read_time
    · exact ⟨d.last_read, d, _, DHT11_read_throttled H E d h ht, by simp⟩
    · obtain ⟨r, h1, l, e, -, q, -⟩ := fresh_effect H E d h ht
      exact ⟨r, _, h1, e, by omega⟩

/-- C17: a Success reading of a call that is not throttled has humidity and
temperature between 0 and 255 and their sum at most 255: the captured payload
passed `_checkCRC`, which compares byte 4 with the sum of bytes 0 to 3 taken
without wrap-around, so that sum is byte 4 and at most 255. -/
theorem success_reading_range (H : Header) (hT : H.DHT11_OK ≠ H.DHT11_TIMEOUT_ERROR)
    (hC : H.DHT11_OK ≠ H.DHT11_CRC_ERROR) (E : Env) (d : Driver) (h : Hw)
    (hfresh : ¬ E.clock h.clockReads - 2000000 < d.last_read_time)
    (r : dht11_reading) (e : (DHT11_read H E d h).map Prod.fst = some r)
    (hs : r.status = H.DHT11_OK) :
    0 ≤ r.humidity ∧ r.humidity ≤ 255 ∧ 0 ≤ r.temperature ∧ r.temperature ≤ 255 ∧
    r.humidity + r.temperature ≤ 255 ∧
    ∃ data h1,
      acquire H E d.dht_gpio (esp_timer_get_time E (esp_timer_get_time E h).2).2 =
        some (Decoded.payload data, h1) ∧
      data.getD 0 0 + data.getD 1 0 + data.getD 2 0 + data.getD 3 0 = data.getD 4 0 ∧
      data.getD 4 0 ≤ 255 := by
  obtain ⟨data, h1, e1, hlt, hsum, hh, ht⟩ := success_payload_exact H hT hC E d h hfresh r e hs
  have h4 := hlt 4
  have n0 : (0 : Int) ≤ (data.getD 0 0 : Nat) := Int.ofNat_nonneg _
  have n2 : (0 : Int) ≤ (data.getD 2 0 : Nat) := Int.ofNat_nonneg _
  refine ⟨by omega, by omega, by omega, by omega, by omega, data, h1, e1, hsum.symm, by omega⟩

theorem success_reading_range_witness :
    upstreamHeader.DHT11_OK ≠ upstreamHeader.DHT11_TIMEOUT_ERROR ∧
    upstreamHeader.DHT11_OK ≠ upstreamHeader.DHT11_CRC_ERROR ∧
    ¬ envA.clock hw0.clockReads - 2000000 < initialDriver.last_read_time ∧
    (DHT11_read upstreamHeader envA initialDriver hw0).map Prod.fst =
      some { status := 0, temperature := 26, humidity := 55 } ∧
    ((0 : Int) ≤ 55 ∧ (55 : Int) ≤ 255 ∧ (0 : Int) ≤ 26 ∧ (26 : Int) ≤ 255 ∧
    (55 : Int) + 26 ≤ 255 ∧
    ∃ data h1,
      acquire upstreamHeader envA initialDriver.dht_gpio
          (esp_timer_get_time envA (esp_timer_get_time envA hw0).2).2 =
        some (Decoded.payload data, h1) ∧
      data.getD 0 0 + data.getD 1 0 + data.getD 2 0 + data.getD 3 0 = data.getD 4 0 ∧
      data.getD 4 0 ≤ 255) :=
  ⟨by decide, by decide, by decide, envA_reading,
    success_reading_range upstreamHeader (by decide) (by decide) envA initialDriver hw0
      (by decide) { status := 0, temperature := 26, humidity := 55 } envA_reading rfl⟩

end DHT11
